import Mathlib

/-!
# pcap-addtc: a shallow embedding of `src/main.cpp`

The program reads a capture, reports the first/last frame time, and (when a
window and an output file are given) generates periodic SpaceWire TimeCode
packets, sorts them together with the original packets and writes the result.

Conventions of the embedding
* `std::int64_t` values are `Int`; the places where an `int64` operation can
  leave the range (`to_epoch_us`, the `ts += period` of the generation loop)
  go through `wrap64` (two's complement wrap-around).
* bytes are `Nat` (below 256), `std::vector` is `List`, `push_back` appends.
* C++ `/` and `%` on signed integers are `Int.tdiv` and `Int.tmod`.
* library routines (`atoll`, `atoi`, `std::sort`, the capture library) are not
  part of the repository: `atoll`, `atoi` and `std::sort` are parameters, the
  capture library is an explicit environment, `gmtime_r` and `snprintf` are
  written out after their documented behaviour. What holds for every
  `std::sort` is proved from the contract of the C++ standard
  (`StdSortContract`); what a run really prints at a tie is computed with
  `std_sort`, the routine as libstdc++ 12 implements it.
-/

namespace PcapAddtc

/-! ## Constants and data model (main.cpp 12-32) -/

def SPW_ESC : Nat := 0xFC
def DLT_USER2_VALUE : Int := 149
def DEFAULT_FREQUENCY : Int := 64

def PCAP_TSTAMP_PRECISION_MICRO : Int := 0
def PCAP_TSTAMP_PRECISION_NANO : Int := 1

def INT64_MAX : Int := 9223372036854775807
def INT64_MIN : Int := -9223372036854775808

/-- Two's complement reduction of an integer to the `int64` range. -/
def wrap64 (x : Int) : Int := (x + 9223372036854775808) % 18446744073709551616 - 9223372036854775808

/-- Membership in the `int64` range. -/
def InInt64 (x : Int) : Prop := INT64_MIN ≤ x ∧ x ≤ INT64_MAX

instance instDecidableInInt64 (x : Int) : Decidable (InInt64 x) :=
  inferInstanceAs (Decidable (INT64_MIN ≤ x ∧ x ≤ INT64_MAX))

structure EpochTimeUs where
  us : Int := 0
  valid : Bool := false
deriving DecidableEq, Repr

structure Packet where
  timestamp_us : Int := 0
  data : List Nat := []
  orig_len : Nat := 0
  datalink_type : Int := 0
deriving DecidableEq, Repr

/-- The comparison `Packet::operator<`: timestamps only. -/
def Packet.lt (a other : Packet) : Bool := decide (a.timestamp_us < other.timestamp_us)

/-- The struct `timeval` of a frame header. -/
structure timeval where
  tv_sec : Int
  tv_usec : Int
deriving DecidableEq, Repr

/-! ## generate_timecode_data (main.cpp 34-42) -/

/-- ESC followed by the data character; the argument is a `uint8_t`. -/
def generate_timecode_data (timecode_value : Nat) : List Nat :=
  let data : List Nat := []
  let data := data ++ [SPW_ESC]
  let data_char := (timecode_value % 256) &&& 0x3F
  let data := data ++ [data_char]
  data

/-! ## to_epoch_us (main.cpp 44-52) -/

def to_epoch_us (ts : timeval) (precision : Int) : Int :=
  let subsec_us : Int :=
    if precision = PCAP_TSTAMP_PRECISION_NANO then Int.tdiv ts.tv_usec 1000 else ts.tv_usec
  wrap64 (wrap64 (ts.tv_sec * 1000000) + subsec_us)

/-! ## format_jst_iso (main.cpp 54-83) -/

/-- Lines 55-60: the seconds and sub-second parts before rendering. No `int64`
operation of these lines can overflow, so they are plain integer operations. -/
def jst_split (epoch_us : Int) : Int × Int :=
  let epoch_sec := Int.tdiv epoch_us 1000000
  let subsec_us := Int.tmod epoch_us 1000000
  if subsec_us < 0 then (epoch_sec - 1, subsec_us + 1000000) else (epoch_sec, subsec_us)

/-- The fields of `std::tm` that `format_jst_iso` reads. -/
structure Tm where
  tm_year : Int
  tm_mon : Int
  tm_mday : Int
  tm_hour : Int
  tm_min : Int
  tm_sec : Int
deriving DecidableEq, Repr

/-- The library routine `gmtime_r`: broken-down UTC time of a count of seconds
since 1970-01-01T00:00:00Z in the proleptic Gregorian calendar (days are split
off by floor division; the date is computed from the day number counted from
0000-03-01 in 400-year eras). It reads no timezone setting. -/
def gmtime_r (t : Int) : Tm :=
  let days := t / 86400
  let rem := t % 86400
  let z := days + 719468
  let era := z / 146097
  let doe := z % 146097
  let yoe := (doe - doe / 1460 + doe / 36524 - doe / 146096) / 365
  let doy := doe - (365 * yoe + yoe / 4 - yoe / 100)
  let mp := (5 * doy + 2) / 153
  let d := doy - (153 * mp + 2) / 5 + 1
  let m := if mp < 10 then mp + 3 else mp - 9
  let y := yoe + era * 400 + (if m ≤ 2 then 1 else 0)
  { tm_year := y - 1900, tm_mon := m - 1, tm_mday := d,
    tm_hour := rem / 3600, tm_min := rem % 3600 / 60, tm_sec := rem % 60 }

/-- Left padding with the character 0 up to a minimal width. -/
def zero_pad (width : Nat) (digits : List Char) : List Char :=
  List.replicate (width - digits.length) '0' ++ digits

/-- The conversion `%0<width>d` (also `%0<width>ld`) of printf: decimal digits,
padded with zeros to the minimal width, the sign counting towards the width. -/
def fmt_d0 (width : Nat) (v : Int) : List Char :=
  if v < 0 then '-' :: zero_pad (width - 1) (Nat.toDigits 10 v.natAbs)
  else zero_pad width (Nat.toDigits 10 v.natAbs)

/-- The characters that the format string
`%04d-%02d-%02d %02d:%02d:%02d.%06ld+09:00` produces. -/
def jst_chars (tm : Tm) (subsec_us : Int) : List Char :=
  fmt_d0 4 (tm.tm_year + 1900) ++ ['-'] ++ fmt_d0 2 (tm.tm_mon + 1) ++ ['-'] ++
  fmt_d0 2 tm.tm_mday ++ [' '] ++ fmt_d0 2 tm.tm_hour ++ [':'] ++ fmt_d0 2 tm.tm_min ++
  [':'] ++ fmt_d0 2 tm.tm_sec ++ ['.'] ++ fmt_d0 6 subsec_us ++ "+09:00".toList

/-- The function `format_jst_iso`; `snprintf` into `buffer[64]` keeps at most 63
characters. -/
def format_jst_iso (epoch_us : Int) : String :=
  let (epoch_sec, subsec_us) := jst_split epoch_us
  let jst_sec := epoch_sec + 9 * 3600
  let tm_utc := gmtime_r jst_sec
  String.mk ((jst_chars tm_utc subsec_us).take 63)

/-! ## The capture library as an explicit environment -/

/-- One answer of `pcap_next_ex` with a non-negative result: a frame (result 1,
with header `ts`, `len` and the `caplen` captured bytes) or a timeout
(result 0). -/
inductive ReadItem where
  | packet (ts : timeval) (len : Nat) (data : List Nat)
  | timeout
deriving DecidableEq, Repr

/-- A capture opened by `pcap_open_offline`: its timestamp precision, the
non-negative answers of `pcap_next_ex` in order, and whether the negative
answer that ends the read loop is -1 (an error) rather than end of file. -/
structure Capture where
  precision : Int
  items : List ReadItem
  read_error : Bool
deriving DecidableEq, Repr

/-- The world outside the program: which paths open as which capture, and
whether the output handle and the output file can be created. -/
structure Env where
  open_offline : String → Option Capture
  open_dead_ok : Bool
  dump_open_ok : String → Bool

/-- An argument of a printf call. -/
inductive Arg where
  | str (s : String)
  | i64 (v : Int)
  | int (v : Int)
  | size (n : Nat)
  | seconds_from_us (duration_us : Int)
deriving DecidableEq, Repr

/-- The observable actions of the program, in order. -/
inductive Event where
  | fprintf_stderr (fmt : String) (args : List Arg)
  | printf (fmt : String) (args : List Arg)
  | pcap_open_offline (path : String)
  | pcap_close_input
  | pcap_open_dead (linktype : Int) (snaplen : Nat)
  | pcap_dump_open (path : String)
  | pcap_dump (tv_sec tv_usec : Int) (len caplen : Nat) (data : List Nat)
  | pcap_dump_close
  | pcap_close_output
deriving DecidableEq, Repr

/-- Only diagnostics on stderr. -/
def Event.isStderr : Event → Bool
  | .fprintf_stderr _ _ => true
  | _ => false

/-- A record handed to the output sink. -/
def Event.isDump : Event → Bool
  | .pcap_dump _ _ _ _ _ => true
  | _ => false

/-- The function `print_usage` (main.cpp 85-92). -/
def print_usage (prog : String) : List Event :=
  [ .fprintf_stderr "Usage: %s --pcap <input-pcap> [--start <epoch_us> --end <epoch_us> --file <output-pcap>] [--freq <frequency_hz>]\n" [.str prog],
    .fprintf_stderr "  --pcap <input-pcap>      : Input PCAP file (required)\n" [],
    .fprintf_stderr "  --start <epoch_us>       : Start time in microseconds (optional, for TimeCode generation)\n" [],
    .fprintf_stderr "  --end <epoch_us>         : End time in microseconds (optional, for TimeCode generation)\n" [],
    .fprintf_stderr "  --file <output-pcap>     : Output PCAP file (optional, for TimeCode generation)\n" [],
    .fprintf_stderr "  --freq <frequency_hz>    : TimeCode frequency in Hz (default: 64)\n" [] ]

/-! ## main: option parsing (main.cpp 96-158) -/

/-- The local variables that the option loop fills in. -/
structure Config where
  pcap_path : Option String := none
  output_path : Option String := none
  start_us : Int := -1
  end_us : Int := -1
  frequency : Int := DEFAULT_FREQUENCY
deriving DecidableEq, Repr

/-- The option loop over `argv[1..]`; an error gives the diagnostics printed
before `return 1`. The library routines `atoll` and `atoi` are parameters. -/
def parse_args (atoll atoi : String → Int) (prog : String) :
    List String → Config → Except (List Event) Config
  | [], cfg => .ok cfg
  | a :: rest, cfg =>
    if a = "--pcap" then
      match rest with
      | v :: rest' => parse_args atoll atoi prog rest' { cfg with pcap_path := some v }
      | [] => .error (.fprintf_stderr "Error: --pcap requires a file path\n" [] :: print_usage prog)
    else if a = "--start" then
      match rest with
      | v :: rest' => parse_args atoll atoi prog rest' { cfg with start_us := atoll v }
      | [] => .error (.fprintf_stderr "Error: --start requires a value\n" [] :: print_usage prog)
    else if a = "--end" then
      match rest with
      | v :: rest' => parse_args atoll atoi prog rest' { cfg with end_us := atoll v }
      | [] => .error (.fprintf_stderr "Error: --end requires a value\n" [] :: print_usage prog)
    else if a = "--file" then
      match rest with
      | v :: rest' => parse_args atoll atoi prog rest' { cfg with output_path := some v }
      | [] => .error (.fprintf_stderr "Error: --file requires a file path\n" [] :: print_usage prog)
    else if a = "--freq" then
      match rest with
      | v :: rest' =>
        let frequency := atoi v
        if frequency ≤ 0 then
          .error (.fprintf_stderr "Error: --freq must be a positive integer\n" [] :: print_usage prog)
        else parse_args atoll atoi prog rest' { cfg with frequency := frequency }
      | [] => .error (.fprintf_stderr "Error: --freq requires a value\n" [] :: print_usage prog)
    else
      .error (.fprintf_stderr "Error: Unknown option: %s\n" [.str a] :: print_usage prog)

/-! ## main: the read loop (main.cpp 188-220) -/

/-- The variables that the read loop updates. -/
structure ReadState where
  packets : List Packet := []
  frame_count : Int := 0
  first : EpochTimeUs := {}
  last : EpochTimeUs := {}
deriving DecidableEq, Repr

/-- One pass of the loop body for one non-negative answer of `pcap_next_ex`. -/
def read_step (precision : Int) (generate_timecode : Bool) (st : ReadState) :
    ReadItem → ReadState
  | .timeout => st
  | .packet ts len data =>
    let epoch_us := to_epoch_us ts precision
    let first := if !st.first.valid then { us := epoch_us, valid := true } else st.first
    let last : EpochTimeUs := { us := epoch_us, valid := true }
    let packets :=
      if generate_timecode then
        st.packets ++ [{ timestamp_us := epoch_us, orig_len := len, datalink_type := 0, data := data }]
      else st.packets
    { packets := packets, frame_count := st.frame_count + 1, first := first, last := last }

/-- The whole read loop. -/
def read_loop (precision : Int) (generate_timecode : Bool) (items : List ReadItem) : ReadState :=
  items.foldl (read_step precision generate_timecode) {}

/-! ## main: TimeCode generation (main.cpp 262-276) -/

/-- The packet built by one pass of the generation loop. -/
def timecode_packet (ts : Int) (timecode_value : Nat) : Packet :=
  let data := generate_timecode_data timecode_value
  { timestamp_us := ts, datalink_type := DLT_USER2_VALUE, data := data,
    orig_len := data.length % 4294967296 }

/-- The generation loop `for (ts = start_us; ts <= end_us; ts += period)`, run
for at most `fuel` passes. The result is the vector `packets` so far and
whether the loop condition has become false (the loop has ended). -/
def timecode_loop (end_us timecode_period_us : Int) :
    Nat → Int → Nat → List Packet → List Packet × Bool
  | 0, _, _, packets => (packets, false)
  | fuel + 1, ts, timecode_value, packets =>
    if ts ≤ end_us then
      timecode_loop end_us timecode_period_us fuel (wrap64 (ts + timecode_period_us))
        ((timecode_value + 1) % 64 % 256) (packets ++ [timecode_packet ts timecode_value])
    else (packets, true)

/-! ## main: merge and output (main.cpp 278-312) -/

/-- The type of the library routine `std::sort` on a vector of packets with a
comparison. -/
abbrev SortFn := (Packet → Packet → Bool) → List Packet → List Packet

/-- A strict weak ordering, the requirement of `std::sort` on its comparison. -/
def StrictWeakOrder (lt : Packet → Packet → Bool) : Prop :=
  (∀ a, lt a a = false) ∧
  (∀ a b c, lt a b = true → lt b c = true → lt a c = true) ∧
  (∀ a b c, lt a b = false → lt b a = false → lt b c = false → lt c b = false →
    lt a c = false ∧ lt c a = false)

/-- What the C++ standard promises of `std::sort`: for a strict weak ordering
the result holds the same elements and no element is less than one before it.
The order of equivalent elements is not promised. -/
def StdSortContract (sort : SortFn) : Prop :=
  ∀ lt, StrictWeakOrder lt → ∀ l,
    (sort lt l).Perm l ∧ (sort lt l).Pairwise (fun a b => lt b a = false)

/-- Line 279: `std::sort(packets.begin(), packets.end())`, which compares with
`Packet::operator<`. -/
def sort_packets (sort : SortFn) (packets : List Packet) : List Packet :=
  sort Packet.lt packets

/-- The body of the output loop (main.cpp 298-306) for one packet. -/
def dump_packet (pkt : Packet) : Event :=
  .pcap_dump (Int.tdiv pkt.timestamp_us 1000000) (Int.tmod pkt.timestamp_us 1000000)
    pkt.orig_len pkt.data.length pkt.data

/-- Line 167. -/
def generate_timecode (cfg : Config) : Bool :=
  decide (0 ≤ cfg.start_us) && decide (0 ≤ cfg.end_us) && cfg.output_path.isSome

/-- Lines 257-312, entered when `generate_timecode` holds: the events and the
exit status, or `none` when the generation loop has not ended after `fuel`
passes. -/
def generate_and_write (sort : SortFn) (fuel : Nat) (env : Env) (cfg : Config)
    (output_path : String) (buffered : List Packet) : Option (List Event × Int) :=
  let timecode_period_us := Int.tdiv 1000000 cfg.frequency
  let ev1 : List Event :=
    [ .printf "\nGenerating TimeCode packets...\n" [],
      .printf "TimeCode frequency: %d Hz (period: %ld us)\n" [.int cfg.frequency, .i64 timecode_period_us] ]
  match timecode_loop cfg.end_us timecode_period_us fuel cfg.start_us 0 buffered with
  | (_, false) => none
  | (packets, true) =>
    let packets := sort_packets sort packets
    let ev2 := ev1 ++ [ .printf "Total packets (original + TimeCode): %zu\n" [.size packets.length],
                        .pcap_open_dead DLT_USER2_VALUE 65535 ]
    if !env.open_dead_ok then
      some (ev2 ++ [.fprintf_stderr "Failed to create output PCAP handle\n" []], 1)
    else
      let ev3 := ev2 ++ [.pcap_dump_open output_path]
      if !env.dump_open_ok output_path then
        some (ev3 ++ [ .fprintf_stderr "Failed to open output PCAP file: %s\n" [.str "pcap_geterr"],
                       .pcap_close_output ], 1)
      else
        some (ev3 ++ packets.map dump_packet ++
          [ .pcap_dump_close, .pcap_close_output,
            .printf "Output PCAP file created: %s\n" [.str output_path] ], 0)

/-- Lines 160-314: the program after the option loop. -/
def run (sort : SortFn) (fuel : Nat) (env : Env) (prog : String) (cfg : Config) :
    Option (List Event × Int) :=
  match cfg.pcap_path with
  | none => some (.fprintf_stderr "Error: --pcap option is required\n" [] :: print_usage prog, 1)
  | some pcap_path =>
    if generate_timecode cfg && decide (cfg.start_us ≥ cfg.end_us) then
      some ([.fprintf_stderr "Error: --start must be less than --end\n" []], 1)
    else
      match env.open_offline pcap_path with
      | none =>
        some ([ .pcap_open_offline pcap_path,
                .fprintf_stderr "Failed to open PCAP: %s\n" [.str "errbuf"] ], 1)
      | some handle =>
        let st := read_loop handle.precision (generate_timecode cfg) handle.items
        if handle.read_error then
          some ([ .pcap_open_offline pcap_path,
                  .fprintf_stderr "Error while reading PCAP: %s\n" [.str "pcap_geterr"],
                  .pcap_close_input ], 1)
        else
          let ev1 : List Event :=
            [ .pcap_open_offline pcap_path, .pcap_close_input,
              .printf "File: %s\n" [.str pcap_path],
              .printf "Frame count: %ld\n" [.i64 st.frame_count] ]
          if !st.first.valid || !st.last.valid then
            some (ev1 ++ [ .printf "First frame time: N/A\n" [],
                           .printf "Last frame time: N/A\n" [],
                           .printf "Duration: N/A\n" [] ], 0)
          else
            let first_jst := format_jst_iso st.first.us
            let last_jst := format_jst_iso st.last.us
            let duration_us := wrap64 (st.last.us - st.first.us)
            let ev2 := ev1 ++
              [ .printf "First frame time:\n" [],
                .printf "  JST: %s\n" [.str first_jst],
                .printf "  epoch_us: %ld\n" [.i64 st.first.us],
                .printf "Last frame time:\n" [],
                .printf "  JST: %s\n" [.str last_jst],
                .printf "  epoch_us: %ld\n" [.i64 st.last.us],
                .printf "Duration: %.6f s\n" [.seconds_from_us duration_us] ]
            match generate_timecode cfg, cfg.output_path with
            | true, some output_path =>
              match generate_and_write sort fuel env cfg output_path st.packets with
              | none => none
              | some (ev3, status) => some (ev2 ++ ev3, status)
            | _, _ => some (ev2, 0)

/-- The function `main`: `argv[0]` is `prog`, `args` are `argv[1..]`. -/
def main (atoll atoi : String → Int) (sort : SortFn) (fuel : Nat) (env : Env)
    (prog : String) (args : List String) : Option (List Event × Int) :=
  match parse_args atoll atoi prog args {} with
  | .error events => some (events, 1)
  | .ok cfg => run sort fuel env prog cfg

/-! ## A sorting routine that provably meets the contract of `std::sort` -/

/-- Insertion sort with the order "not greater"; keeps equal elements in their
order. -/
def insertion_sort : SortFn :=
  fun lt l => List.insertionSort (fun a b => lt b a = false) l

/-! ## The library routine std::sort, as implemented by libstdc++ 12

The functions below follow `bits/stl_algo.h` and `bits/stl_heap.h` of
libstdc++ 12 (`std::__sort` and what it calls). A vector is a list, an
iterator is an index into it, and every function returns the vector after
its assignments. A loop runs for at most as many passes as the bound given
to it; the bounds exceed the number of passes that the routine can make on a
vector of that length. -/

/-- The element under an iterator. -/
def deref (v : List Packet) (i : Nat) : Packet := v.getD i {}

/-- The routine `std::iter_swap`. -/
def iter_swap (v : List Packet) (a b : Nat) : List Packet :=
  (v.set a (deref v b)).set b (deref v a)

/-- The routine `std::__lg`: the floor of the binary logarithm. -/
def lg : Nat → Nat → Nat
  | 0, _ => 0
  | fuel + 1, n => if 2 ≤ n then lg fuel (n / 2) + 1 else 0

/-- The routine `__move_median_to_first`. -/
def move_median_to_first (comp : Packet → Packet → Bool) (v : List Packet)
    (result a b c : Nat) : List Packet :=
  if comp (deref v a) (deref v b) then
    if comp (deref v b) (deref v c) then iter_swap v result b
    else if comp (deref v a) (deref v c) then iter_swap v result c
    else iter_swap v result a
  else if comp (deref v a) (deref v c) then iter_swap v result a
  else if comp (deref v b) (deref v c) then iter_swap v result c
  else iter_swap v result b

/-- The loop `while (__comp(__first, __pivot)) ++__first;`. -/
def partition_up (comp : Packet → Packet → Bool) (v : List Packet) (pivot : Nat) :
    Nat → Nat → Nat
  | 0, first => first
  | fuel + 1, first =>
    if comp (deref v first) (deref v pivot) then partition_up comp v pivot fuel (first + 1)
    else first

/-- The loop `while (__comp(__pivot, __last)) --__last;`. -/
def partition_down (comp : Packet → Packet → Bool) (v : List Packet) (pivot : Nat) :
    Nat → Nat → Nat
  | 0, last => last
  | fuel + 1, last =>
    if comp (deref v pivot) (deref v last) then partition_down comp v pivot fuel (last - 1)
    else last

/-- The routine `__unguarded_partition`: the cut and the vector. -/
def unguarded_partition (comp : Packet → Packet → Bool) (pivot : Nat) :
    Nat → List Packet → Nat → Nat → Nat × List Packet
  | 0, v, first, _ => (first, v)
  | fuel + 1, v, first, last =>
    let first := partition_up comp v pivot v.length first
    let last := last - 1
    let last := partition_down comp v pivot v.length last
    if ¬ first < last then (first, v)
    else unguarded_partition comp pivot fuel (iter_swap v first last) (first + 1) last

/-- The routine `__unguarded_partition_pivot`. -/
def unguarded_partition_pivot (comp : Packet → Packet → Bool) (v : List Packet)
    (first last : Nat) : Nat × List Packet :=
  let mid := first + (last - first) / 2
  let v := move_median_to_first comp v first (first + 1) mid (last - 1)
  unguarded_partition comp first v.length v (first + 1) last

/-- The routine `__push_heap`. -/
def push_heap (comp : Packet → Packet → Bool) (first topIndex : Nat) (value : Packet) :
    Nat → List Packet → Nat → List Packet
  | 0, v, holeIndex => v.set (first + holeIndex) value
  | fuel + 1, v, holeIndex =>
    let parent := (holeIndex - 1) / 2
    if holeIndex > topIndex && comp (deref v (first + parent)) value then
      push_heap comp first topIndex value fuel
        (v.set (first + holeIndex) (deref v (first + parent))) parent
    else v.set (first + holeIndex) value

/-- The first loop of `__adjust_heap`: the vector, the hole and the second
child when the loop ends. -/
def adjust_heap_down (comp : Packet → Packet → Bool) (first len : Nat) :
    Nat → List Packet → Nat → Nat → List Packet × Nat × Nat
  | 0, v, holeIndex, secondChild => (v, holeIndex, secondChild)
  | fuel + 1, v, holeIndex, secondChild =>
    if secondChild < (len - 1) / 2 then
      let secondChild := 2 * (secondChild + 1)
      let secondChild :=
        if comp (deref v (first + secondChild)) (deref v (first + (secondChild - 1))) then
          secondChild - 1
        else secondChild
      adjust_heap_down comp first len fuel
        (v.set (first + holeIndex) (deref v (first + secondChild))) secondChild secondChild
    else (v, holeIndex, secondChild)

/-- The routine `__adjust_heap`. -/
def adjust_heap (comp : Packet → Packet → Bool) (v : List Packet) (first holeIndex len : Nat)
    (value : Packet) : List Packet :=
  let topIndex := holeIndex
  let (v, holeIndex, secondChild) := adjust_heap_down comp first len len v holeIndex holeIndex
  if len % 2 = 0 ∧ 2 ≤ len ∧ secondChild = (len - 2) / 2 then
    let secondChild := 2 * (secondChild + 1)
    let v := v.set (first + holeIndex) (deref v (first + (secondChild - 1)))
    push_heap comp first topIndex value len v (secondChild - 1)
  else push_heap comp first topIndex value len v holeIndex

/-- The routine `__pop_heap`. -/
def pop_heap (comp : Packet → Packet → Bool) (v : List Packet) (first last result : Nat) :
    List Packet :=
  let value := deref v result
  let v := v.set result (deref v first)
  adjust_heap comp v first 0 (last - first) value

/-- The loop of `__make_heap`, from `__parent` down to 0. -/
def make_heap_loop (comp : Packet → Packet → Bool) (first len : Nat) :
    Nat → List Packet → List Packet
  | 0, v => adjust_heap comp v first 0 len (deref v first)
  | parent + 1, v =>
    make_heap_loop comp first len parent
      (adjust_heap comp v first (parent + 1) len (deref v (first + (parent + 1))))

/-- The routine `__make_heap`. -/
def make_heap (comp : Packet → Packet → Bool) (v : List Packet) (first last : Nat) :
    List Packet :=
  if last - first < 2 then v
  else make_heap_loop comp first (last - first) ((last - first - 2) / 2) v

/-- The routine `__sort_heap`. -/
def sort_heap (comp : Packet → Packet → Bool) (first : Nat) :
    Nat → List Packet → Nat → List Packet
  | 0, v, _ => v
  | fuel + 1, v, last =>
    if last - first > 1 then
      sort_heap comp first fuel (pop_heap comp v first (last - 1) (last - 1)) (last - 1)
    else v

/-- The loop of `__heap_select`, from `__i` up to `__last`. -/
def heap_select_loop (comp : Packet → Packet → Bool) (first middle last : Nat) :
    Nat → List Packet → Nat → List Packet
  | 0, v, _ => v
  | fuel + 1, v, i =>
    if i < last then
      heap_select_loop comp first middle last fuel
        (if comp (deref v i) (deref v first) then pop_heap comp v first middle i else v) (i + 1)
    else v

/-- The routine `__heap_select`. -/
def heap_select (comp : Packet → Packet → Bool) (v : List Packet) (first middle last : Nat) :
    List Packet :=
  let v := make_heap comp v first middle
  heap_select_loop comp first middle last v.length v middle

/-- The routine `__partial_sort`. -/
def heapsort_range (comp : Packet → Packet → Bool) (v : List Packet) (first middle last : Nat) :
    List Packet :=
  let v := heap_select comp v first middle last
  sort_heap comp first v.length v middle

/-- The routine `__introsort_loop`. -/
def introsort_loop (comp : Packet → Packet → Bool) :
    Nat → List Packet → Nat → Nat → Nat → List Packet
  | 0, v, _, _, _ => v
  | fuel + 1, v, first, last, depth_limit =>
    if last - first > 16 then
      if depth_limit = 0 then heapsort_range comp v first last last
      else
        let depth_limit := depth_limit - 1
        let (cut, v) := unguarded_partition_pivot comp v first last
        let v := introsort_loop comp fuel v cut last depth_limit
        introsort_loop comp fuel v first cut depth_limit
    else v

/-- The loop of `__unguarded_linear_insert`. -/
def unguarded_linear_insert_loop (comp : Packet → Packet → Bool) (val : Packet) :
    Nat → List Packet → Nat → List Packet
  | 0, v, last => v.set last val
  | fuel + 1, v, last =>
    let next := last - 1
    if comp val (deref v next) then
      unguarded_linear_insert_loop comp val fuel (v.set last (deref v next)) next
    else v.set last val

/-- The routine `__unguarded_linear_insert`. -/
def unguarded_linear_insert (comp : Packet → Packet → Bool) (v : List Packet) (last : Nat) :
    List Packet :=
  unguarded_linear_insert_loop comp (deref v last) v.length v last

/-- The loop of `__insertion_sort`, from `__i` on for `count` elements;
`std::move_backward` shifts the elements of `[first, i)` up by one. -/
def insertion_sort_loop (comp : Packet → Packet → Bool) (first : Nat) :
    Nat → List Packet → Nat → List Packet
  | 0, v, _ => v
  | count + 1, v, i =>
    let v :=
      if comp (deref v i) (deref v first) then
        v.take first ++ deref v i :: (v.drop first).take (i - first) ++ v.drop (i + 1)
      else unguarded_linear_insert comp v i
    insertion_sort_loop comp first count v (i + 1)

/-- The routine `__insertion_sort`. -/
def insertion_sort_range (comp : Packet → Packet → Bool) (v : List Packet) (first last : Nat) :
    List Packet :=
  if first = last then v else insertion_sort_loop comp first (last - (first + 1)) v (first + 1)

/-- The routine `__unguarded_insertion_sort`. -/
def unguarded_insertion_sort (comp : Packet → Packet → Bool) :
    Nat → List Packet → Nat → List Packet
  | 0, v, _ => v
  | count + 1, v, i =>
    unguarded_insertion_sort comp count (unguarded_linear_insert comp v i) (i + 1)

/-- The routine `__final_insertion_sort`. -/
def final_insertion_sort (comp : Packet → Packet → Bool) (v : List Packet) (first last : Nat) :
    List Packet :=
  if last - first > 16 then
    let v := insertion_sort_range comp v first (first + 16)
    unguarded_insertion_sort comp (last - (first + 16)) v (first + 16)
  else insertion_sort_range comp v first last

/-- The routine `std::sort` on a whole vector (`std::__sort`). -/
def std_sort : SortFn := fun comp v =>
  if v.length = 0 then v
  else
    let v := introsort_loop comp (v.length + 1) v 0 v.length (lg v.length v.length * 2)
    final_insertion_sort comp v 0 v.length

/-! ## Definitions used in the statements: projections, renderings, sample inputs -/

/-- The kind-and-payload part of a packet: payload, declared length, link type. -/
def Packet.body (p : Packet) : List Nat × Nat × Int := (p.data, p.orig_len, p.datalink_type)

/-- The packet that the read loop buffers for a frame. -/
def original_packet (precision : Int) : ReadItem → Option Packet
  | .timeout => none
  | .packet ts len data =>
    some { timestamp_us := to_epoch_us ts precision, orig_len := len, datalink_type := 0,
           data := data }

/-- Sample original packets and one TimeCode packet. -/
def sample_originals : List Packet :=
  [ { timestamp_us := 5000, data := [1, 2, 3], orig_len := 3, datalink_type := 0 },
    { timestamp_us := 1000, data := [9], orig_len := 60, datalink_type := 0 } ]

def sample_timecodes : List Packet := [timecode_packet 0 0, timecode_packet 2500 1]

/-- A capture with sixteen frames, at 0, 10, ..., 150 microseconds; frame `i`
has the one payload byte `i`. -/
def tie_capture : Capture :=
  { precision := PCAP_TSTAMP_PRECISION_MICRO,
    items := (List.range 16).map (fun (i : Nat) => ReadItem.packet ⟨0, 10 * (i : Int)⟩ 1 [i]),
    read_error := false }

/-- Every path opens as `tie_capture`; the output can be created. -/
def tie_env : Env :=
  { open_offline := fun _ => some tie_capture, open_dead_ok := true,
    dump_open_ok := fun _ => true }

/-- The window 0..150 at 100000 Hz (period 10): a TimeCode at the time of
every frame of `tie_capture`. -/
def tie_cfg : Config :=
  { pcap_path := some "in.pcap", output_path := some "out.pcap", start_us := 0, end_us := 150,
    frequency := 100000 }

/-- The packet that the read loop buffers for frame `i` of `tie_capture`. -/
def tie_original (i : Nat) : Packet :=
  { timestamp_us := 10 * (i : Int), data := [i], orig_len := 1, datalink_type := 0 }

/-- The vector that is sorted in the run of `tie_cfg` on `tie_capture`: the
sixteen original packets followed by the sixteen TimeCode packets. -/
def tie_vector : List Packet :=
  (List.range 16).map tie_original ++
  (List.range 16).map (fun (i : Nat) => timecode_packet (10 * (i : Int)) i)

/-- The value that `atoll` and `atoi` give for a plain decimal numeral with an
optional minus sign (within the range of the result type). -/
def decimal_value (s : String) : Int :=
  let value := fun (ds : List Char) =>
    (ds.takeWhile Char.isDigit).foldl (fun (acc : Int) c => acc * 10 + ((c.toNat : Int) - 48)) 0
  match s.toList with
  | '-' :: ds => -(value ds)
  | ds => value ds

/-- A capture with three frames at 1000, 5000 and 9000 microseconds. -/
def sample_capture : Capture :=
  { precision := PCAP_TSTAMP_PRECISION_MICRO,
    items := [ .packet ⟨0, 1000⟩ 4 [1, 2, 3, 4], .packet ⟨0, 5000⟩ 3 [1, 2, 3],
               .packet ⟨0, 9000⟩ 2 [7, 8] ],
    read_error := false }

/-- A capture without frames. -/
def empty_capture : Capture :=
  { precision := PCAP_TSTAMP_PRECISION_MICRO, items := [], read_error := false }

/-- Every path opens as `sample_capture`; the output can be created. -/
def sample_env : Env :=
  { open_offline := fun _ => some sample_capture, open_dead_ok := true,
    dump_open_ok := fun _ => true }

/-- Every path opens as `empty_capture`; the output can be created. -/
def empty_env : Env :=
  { open_offline := fun _ => some empty_capture, open_dead_ok := true,
    dump_open_ok := fun _ => true }

/-- A configuration with a frequency above one million Hz. -/
def cfg_two_mhz : Config :=
  { pcap_path := some "in.pcap", output_path := some "out.pcap", start_us := 0, end_us := 1,
    frequency := 2000000 }

/-- The configuration of the end-to-end scenario: window 0..10000 at 1 Hz. -/
def cfg_end_to_end : Config :=
  { pcap_path := some "in.pcap", output_path := some "out.pcap", start_us := 0, end_us := 10000,
    frequency := 1 }

/-- A window that ends at the largest `int64` value. -/
def cfg_window_at_int64_max : Config :=
  { pcap_path := some "in.pcap", output_path := some "out.pcap",
    start_us := 9223372036854775806, end_us := 9223372036854775807, frequency := 1 }

/-- Exactly `k` decimal digits of `n`, most significant first, with leading
zeros (the digits of `n mod 10^k`). -/
def dec_fixed : Nat → Nat → List Char
  | 0, _ => []
  | k + 1, n => dec_fixed k (n / 10) ++ [Nat.digitChar (n % 10)]

/-- The civil year at +09:00 that `format_jst_iso` prints. -/
def jst_year (epoch_us : Int) : Int :=
  (gmtime_r ((jst_split epoch_us).1 + 9 * 3600)).tm_year + 1900

/-- The broken-down time at +09:00 that `format_jst_iso` prints. -/
def jst_tm (epoch_us : Int) : Tm := gmtime_r ((jst_split epoch_us).1 + 9 * 3600)

/-- The characters after the year field: `-MM-DD HH:MM:SS.ffffff+09:00`, with
two and six decimal digits with leading zeros. -/
def jst_tail (mon mday hour min sec us : Nat) : List Char :=
  '-' :: dec_fixed 2 mon ++ '-' :: dec_fixed 2 mday ++ ' ' ::
  dec_fixed 2 hour ++ ':' :: dec_fixed 2 min ++ ':' :: dec_fixed 2 sec ++ '.' ::
  dec_fixed 6 us ++ "+09:00".toList

/-- The shape `YYYY-MM-DD HH:MM:SS.ffffff+09:00`: a year of four decimal digits
with leading zeros before the other fields. -/
def jst_shape (year mon mday hour min sec us : Nat) : List Char :=
  dec_fixed 4 year ++ jst_tail mon mday hour min sec us

/-! ## Arithmetic helpers -/

theorem wrap64_of_in_range (x : Int) (h1 : INT64_MIN ≤ x) (h2 : x ≤ INT64_MAX) : wrap64 x = x := by
  unfold wrap64; unfold INT64_MIN at h1; unfold INT64_MAX at h2; omega

theorem wrap64_le_max (x : Int) : wrap64 x ≤ INT64_MAX := by
  unfold wrap64 INT64_MAX; omega

theorem wrap64_ge_min (x : Int) : INT64_MIN ≤ wrap64 x := by
  unfold wrap64 INT64_MIN; omega

theorem wrap64_wrap64_add (a b : Int) : wrap64 (wrap64 a + b) = wrap64 (a + b) := by
  unfold wrap64; omega

theorem land_63_eq_mod (v : Nat) : v &&& 0x3F = v % 64 := by
  have h := Nat.and_pow_two_sub_one_eq_mod v 6
  simpa using h

theorem generate_timecode_data_eq (v : Nat) : generate_timecode_data v = [0xFC, v % 64] := by
  unfold generate_timecode_data SPW_ESC
  simp only [List.nil_append, List.cons_append, land_63_eq_mod]
  congr 2
  omega

theorem timecode_packet_eq (ts : Int) (v : Nat) :
    timecode_packet ts v =
      { timestamp_us := ts, data := [0xFC, v % 64], orig_len := 2, datalink_type := 149 } := by
  unfold timecode_packet
  simp [generate_timecode_data_eq, DLT_USER2_VALUE]

/-! ## The generation loop -/

/-- What the loop has appended after any number of passes: the buffered packets
are kept in front, and the i-th appended packet carries the counter
`(timecode_value + i) mod 64`. -/
theorem timecode_loop_appends (end_us period : Int) :
    ∀ (fuel : Nat) (ts : Int) (tcv : Nat) (packets : List Packet),
      ∃ gen : List Packet,
        (timecode_loop end_us period fuel ts tcv packets).1 = packets ++ gen ∧
        gen.length ≤ fuel ∧
        ((timecode_loop end_us period fuel ts tcv packets).2 = false → gen.length = fuel) ∧
        gen.map Packet.body =
          (List.range gen.length).map (fun i => ([0xFC, (tcv + i) % 64], 2, (149 : Int))) := by
  intro fuel
  induction fuel with
  | zero =>
    intro ts tcv packets
    exact ⟨[], by simp [timecode_loop], by simp, by simp, by simp⟩
  | succ n ih =>
    intro ts tcv packets
    by_cases hle : ts ≤ end_us
    · obtain ⟨gen, h1, h2, h3, h4⟩ :=
        ih (wrap64 (ts + period)) ((tcv + 1) % 64 % 256) (packets ++ [timecode_packet ts tcv])
      refine ⟨timecode_packet ts tcv :: gen, ?_, ?_, ?_, ?_⟩
      · simp only [timecode_loop, if_pos hle, h1, List.append_assoc, List.singleton_append]
      · simp only [List.length_cons]; omega
      · intro hf
        simp only [timecode_loop, if_pos hle] at hf
        simp only [List.length_cons, h3 hf]
      · simp only [List.map_cons, List.length_cons, List.range_succ_eq_map, h4, List.map_map]
        congr 1
        · simp [Packet.body, timecode_packet_eq]
        · apply List.map_congr_left
          intro i _
          simp only [Function.comp, Prod.mk.injEq, List.cons.injEq, true_and, and_true]
          omega
    · refine ⟨[], ?_, by simp, ?_, by simp⟩
      · simp only [timecode_loop, if_neg hle, List.append_nil]
      · intro hf
        simp [timecode_loop, if_neg hle] at hf

/-- With a positive period and no `int64` overflow of `ts += period`, the loop
ends and has appended exactly `(end_us - ts) / period + 1` packets, the i-th
stamped `ts + i * period`. -/
theorem timecode_loop_count (end_us period : Int) (hp : 0 < period) :
    ∀ (n : Nat) (fuel : Nat) (ts : Int) (tcv : Nat) (packets : List Packet),
      INT64_MIN ≤ ts → end_us + period ≤ INT64_MAX →
      ts ≤ end_us + period → (n : Int) = (end_us + period - ts) / period → n < fuel →
      timecode_loop end_us period fuel ts tcv packets =
        (packets ++ (List.range n).map
          (fun (i : Nat) => timecode_packet (ts + (i : Int) * period) ((tcv + i) % 64)), true) := by
  intro n
  induction n with
  | zero =>
    intro fuel ts tcv packets _ _ hts hn hfuel
    obtain ⟨f, rfl⟩ : ∃ f, fuel = f + 1 := ⟨fuel - 1, by omega⟩
    have hlt : (end_us + period - ts) / period < 1 := by rw [← hn]; simp
    have h2 : end_us + period - ts < period := by
      by_contra hc
      have := Int.le_ediv_of_mul_le hp (show 1 * period ≤ end_us + period - ts by omega)
      omega
    have hgt : ¬ ts ≤ end_us := by omega
    simp [timecode_loop, if_neg hgt]
  | succ m ih =>
    intro fuel ts tcv packets hmin hmax hts hn hfuel
    obtain ⟨f, rfl⟩ : ∃ f, fuel = f + 1 := ⟨fuel - 1, by omega⟩
    have hle : ts ≤ end_us := by
      by_contra hc
      have hlt : end_us + period - ts < period := by omega
      have h0 : (end_us + period - ts) / period = 0 :=
        Int.ediv_eq_zero_of_lt (by omega) hlt
      rw [h0] at hn
      omega
    have hw : wrap64 (ts + period) = ts + period :=
      wrap64_of_in_range _ (by omega) (by omega)
    have hdiv : (end_us + period - (ts + period)) / period = (end_us + period - ts) / period - 1 := by
      have : end_us + period - (ts + period) = (end_us + period - ts) + period * (-1) := by ring
      rw [this, Int.add_mul_ediv_left _ _ (ne_of_gt hp)]
      ring
    have hstep := ih f (ts + period) ((tcv + 1) % 64 % 256)
      (packets ++ [timecode_packet ts tcv]) (by omega) hmax (by omega)
      (by rw [hdiv, ← hn]; push_cast; ring) (by omega)
    simp only [timecode_loop, if_pos hle, hw, hstep, List.append_assoc, List.singleton_append,
      List.range_succ_eq_map, List.map_cons, List.map_map, Prod.mk.injEq, and_true]
    congr 1
    congr 1
    · simp [timecode_packet_eq]
    · apply List.map_congr_left
      intro i _
      simp only [Function.comp, timecode_packet_eq]
      congr 1
      · push_cast; ring
      · congr 1
        congr 1
        omega

/-! ## The comparison and the contract of `std::sort` -/

/-- The comparison `Packet::operator<` is a strict weak ordering, so `std::sort`
may be applied with it. -/
theorem packet_lt_strict_weak : StrictWeakOrder Packet.lt := by
  refine ⟨?_, ?_, ?_⟩
  · intro a; simp [Packet.lt]
  · intro a b c h1 h2
    simp only [Packet.lt, decide_eq_true_eq] at *
    omega
  · intro a b c h1 h2 h3 h4
    simp only [Packet.lt, decide_eq_false_iff_not] at *
    constructor <;> omega

theorem swo_asymm {lt : Packet → Packet → Bool} (h : StrictWeakOrder lt) (a b : Packet)
    (hab : lt a b = true) : lt b a = false := by
  by_contra hc
  have hba : lt b a = true := by simpa using hc
  have := h.2.1 a b a hab hba
  rw [h.1 a] at this
  exact Bool.false_ne_true this

theorem swo_not_lt_total {lt : Packet → Packet → Bool} (h : StrictWeakOrder lt) (a b : Packet) :
    lt b a = false ∨ lt a b = false := by
  cases hba : lt b a with
  | false => exact Or.inl rfl
  | true => exact Or.inr (swo_asymm h b a hba)

theorem swo_not_lt_trans {lt : Packet → Packet → Bool} (h : StrictWeakOrder lt) (a b c : Packet)
    (hab : lt b a = false) (hbc : lt c b = false) : lt c a = false := by
  by_contra hc
  have hca : lt c a = true := by simpa using hc
  have hab' : lt a b = false := by
    by_contra h1
    have h1' : lt a b = true := by simpa using h1
    have := h.2.1 c a b hca h1'
    rw [hbc] at this
    exact Bool.false_ne_true this
  have hbc' : lt b c = false := by
    by_contra h1
    have h1' : lt b c = true := by simpa using h1
    have := h.2.1 b c a h1' hca
    rw [hab] at this
    exact Bool.false_ne_true this
  have := (h.2.2 a b c hab' hab hbc' hbc).2
  rw [hca] at this
  exact Bool.false_ne_true this.symm

theorem insertionSort_not_lt (lt : Packet → Packet → Bool) (h : StrictWeakOrder lt)
    (l : List Packet) :
    (List.insertionSort (fun a b => lt b a = false) l).Perm l ∧
    (List.insertionSort (fun a b => lt b a = false) l).Pairwise (fun a b => lt b a = false) := by
  haveI : IsTotal Packet (fun a b => lt b a = false) := ⟨fun a b => swo_not_lt_total h a b⟩
  haveI : IsTrans Packet (fun a b => lt b a = false) :=
    ⟨fun a b c hab hbc => swo_not_lt_trans h a b c hab hbc⟩
  exact ⟨List.perm_insertionSort _ l, List.sorted_insertionSort _ l⟩

theorem insertion_sort_contract : StdSortContract insertion_sort := by
  intro lt h l
  exact insertionSort_not_lt lt h l

/-- What the contract gives for `Packet::operator<`. -/
theorem sort_packets_perm_pairwise (sort : SortFn) (h : StdSortContract sort) (l : List Packet) :
    (sort_packets sort l).Perm l ∧
    (sort_packets sort l).Pairwise (fun a b => a.timestamp_us ≤ b.timestamp_us) := by
  obtain ⟨hp, hs⟩ := h Packet.lt packet_lt_strict_weak l
  refine ⟨hp, hs.imp ?_⟩
  intro a b hab
  simp only [Packet.lt, decide_eq_false_iff_not] at hab
  omega

theorem read_foldl_packets (precision : Int) (items : List ReadItem) :
    ∀ st : ReadState,
      (items.foldl (read_step precision true) st).packets =
        st.packets ++ items.filterMap (original_packet precision) := by
  induction items with
  | nil => intro st; simp
  | cons it rest ih =>
    intro st
    cases it with
    | timeout => simp [List.foldl_cons, ih, read_step, original_packet]
    | packet ts len data =>
      simp [List.foldl_cons, ih, read_step, original_packet]

/-- In synthesis mode the read loop buffers one packet per frame, in order. -/
theorem read_loop_packets (precision : Int) (items : List ReadItem) :
    (read_loop precision true items).packets = items.filterMap (original_packet precision) := by
  unfold read_loop
  rw [read_foldl_packets]
  rfl

theorem read_foldl_timeouts (precision : Int) (g : Bool) (items : List ReadItem)
    (h : ∀ it ∈ items, it = ReadItem.timeout) :
    ∀ st : ReadState, items.foldl (read_step precision g) st = st := by
  induction items with
  | nil => intro st; rfl
  | cons it rest ih =>
    intro st
    have hit : it = ReadItem.timeout := h it (List.mem_cons_self _ _)
    subst hit
    simp only [List.foldl_cons, read_step]
    exact ih (fun x hx => h x (List.mem_cons_of_mem _ hx)) st

theorem read_foldl_first_valid (precision : Int) (g : Bool) (items : List ReadItem) :
    ∀ st : ReadState, (items.foldl (read_step precision g) st).first.valid = true →
      st.first.valid = true ∨ ∃ ts len data, ReadItem.packet ts len data ∈ items := by
  induction items with
  | nil => intro st h; exact Or.inl h
  | cons it rest ih =>
    intro st h
    cases it with
    | timeout =>
      simp only [List.foldl_cons, read_step] at h
      rcases ih st h with h1 | ⟨ts, len, data, hm⟩
      · exact Or.inl h1
      · exact Or.inr ⟨ts, len, data, List.mem_cons_of_mem _ hm⟩
    | packet ts len data =>
      exact Or.inr ⟨ts, len, data, List.mem_cons_self _ _⟩

/-- The first frame time is only valid when a frame was read. -/
theorem read_loop_first_valid (precision : Int) (g : Bool) (items : List ReadItem)
    (h : (read_loop precision g items).first.valid = true) :
    ∃ ts len data, ReadItem.packet ts len data ∈ items := by
  rcases read_foldl_first_valid precision g items {} h with h1 | h2
  · simp at h1
  · exact h2

theorem original_packet_datalink (precision : Int) (items : List ReadItem) :
    ∀ p ∈ items.filterMap (original_packet precision), p.datalink_type = 0 := by
  intro p hp
  obtain ⟨it, _, hit⟩ := List.mem_filterMap.1 hp
  cases it with
  | timeout => simp [original_packet] at hit
  | packet ts len data =>
    simp only [original_packet, Option.some.injEq] at hit
    rw [← hit]

theorem body_datalink_of_map_eq {gen : List Packet} {tcv : Nat}
    (h : gen.map Packet.body =
      (List.range gen.length).map (fun i => ([0xFC, (tcv + i) % 64], 2, (149 : Int)))) :
    ∀ g ∈ gen, g.datalink_type = DLT_USER2_VALUE := by
  intro g hg
  have hmem : g.body ∈ gen.map Packet.body := List.mem_map_of_mem _ hg
  rw [h] at hmem
  obtain ⟨i, _, hi⟩ := List.mem_map.1 hmem
  have : g.body.2.2 = 149 := by rw [← hi]
  simpa [Packet.body, DLT_USER2_VALUE] using this

/-! ## Claims on the merge -/

/-- C2: for original records R and synthetic records T, the merge step (sorting
R followed by T with `Packet::operator<`) yields a permutation of R ++ T, every
record occurring as often as in R and T together with all its fields, and the
timestamps of the result are non-decreasing. -/
theorem merge_is_sorted_permutation (sort : SortFn) (hsort : StdSortContract sort)
    (R T : List Packet) :
    (sort_packets sort (R ++ T)).Perm (R ++ T) ∧
    (∀ p, (sort_packets sort (R ++ T)).count p = R.count p + T.count p) ∧
    (sort_packets sort (R ++ T)).Pairwise (fun a b => a.timestamp_us ≤ b.timestamp_us) := by
  obtain ⟨hp, hs⟩ := sort_packets_perm_pairwise sort hsort (R ++ T)
  refine ⟨hp, ?_, hs⟩
  intro p
  rw [hp.count_eq, List.count_append]

theorem merge_is_sorted_permutation_witness :
    StdSortContract insertion_sort ∧
    sort_packets insertion_sort (sample_originals ++ sample_timecodes) =
      [ timecode_packet 0 0,
        { timestamp_us := 1000, data := [9], orig_len := 60, datalink_type := 0 },
        timecode_packet 2500 1,
        { timestamp_us := 5000, data := [1, 2, 3], orig_len := 3, datalink_type := 0 } ] ∧
    ((sort_packets insertion_sort (sample_originals ++ sample_timecodes)).Perm
        (sample_originals ++ sample_timecodes) ∧
      (∀ p, (sort_packets insertion_sort (sample_originals ++ sample_timecodes)).count p =
        sample_originals.count p + sample_timecodes.count p) ∧
      (sort_packets insertion_sort (sample_originals ++ sample_timecodes)).Pairwise
        (fun a b => a.timestamp_us ≤ b.timestamp_us)) :=
  ⟨insertion_sort_contract, by decide,
    merge_is_sorted_permutation insertion_sort insertion_sort_contract
      sample_originals sample_timecodes⟩

set_option maxRecDepth 100000 in
/-- C3, as stated, fails. With sixteen frames at 0, 10, ..., 150 microseconds
and the window 0..150 at 100000 Hz, the vector holds the sixteen original
packets followed by sixteen TimeCode packets with the same timestamps.
`std::sort` (libstdc++ 12) leaves the timestamps in ascending order but puts
the TimeCode packet of timestamp 20 before the original packet of timestamp
20, which stands before it in the vector; the output of the program has them
in that order. -/
theorem merge_tie_order_not_kept :
    timecode_loop 150 (Int.tdiv 1000000 tie_cfg.frequency) 17 0 0
        (read_loop tie_capture.precision true tie_capture.items).packets =
      (tie_vector, true) ∧
    tie_vector[2]? = some (tie_original 2) ∧
    tie_vector[18]? = some (timecode_packet 20 2) ∧
    (sort_packets std_sort tie_vector)[4]? = some (timecode_packet 20 2) ∧
    (sort_packets std_sort tie_vector)[5]? = some (tie_original 2) ∧
    (sort_packets std_sort tie_vector).map Packet.timestamp_us =
      [0, 0, 10, 10, 20, 20, 30, 30, 40, 40, 50, 50, 60, 60, 70, 70, 80, 80, 90, 90, 100, 100,
       110, 110, 120, 120, 130, 130, 140, 140, 150, 150] ∧
    (run std_sort 17 tie_env "prog" tie_cfg).map
        (fun r => (((r.1.filter Event.isDump).drop 4).take 2, r.2)) =
      some ([ .pcap_dump 0 20 2 2 [0xFC, 2], .pcap_dump 0 20 1 1 [2] ], 0) := by
  refine ⟨by decide, by decide, by decide, by decide, by decide, by decide, by decide⟩

/-- C3, amended: the vector that is sorted holds the original packets (link
type 0) first and the TimeCode packets (link type DLT_USER2) after them; the
merge keeps all of them and orders them by timestamp alone: of two records
with different timestamps the one with the smaller timestamp comes first.
Nothing is fixed for records with the same timestamp. -/
theorem merge_orders_by_timestamp_only (sort : SortFn) (hsort : StdSortContract sort)
    (R T : List Packet) :
    (sort_packets sort (R ++ T)).Perm (R ++ T) ∧
    (∀ (i j : Nat) (a b : Packet),
      (sort_packets sort (R ++ T))[i]? = some a → (sort_packets sort (R ++ T))[j]? = some b →
      a.timestamp_us < b.timestamp_us → i < j) ∧
    (∀ (precision : Int) (items : List ReadItem),
      ∀ p ∈ (read_loop precision true items).packets, p.datalink_type = 0) ∧
    (∀ (end_us period : Int) (fuel : Nat) (start_us : Int) (buffered : List Packet),
      ∃ gen : List Packet,
        (timecode_loop end_us period fuel start_us 0 buffered).1 = buffered ++ gen ∧
        ∀ g ∈ gen, g.datalink_type = DLT_USER2_VALUE) := by
  obtain ⟨hp, hs⟩ := sort_packets_perm_pairwise sort hsort (R ++ T)
  refine ⟨hp, ?_, ?_, ?_⟩
  · intro i j a b hi hj hlt
    by_contra hij
    have hji : j ≤ i := by omega
    rcases Nat.lt_or_eq_of_le hji with h1 | h1
    · obtain ⟨hj', hjb⟩ := List.getElem?_eq_some_iff.1 hj
      obtain ⟨hi', hia⟩ := List.getElem?_eq_some_iff.1 hi
      have := (List.pairwise_iff_getElem.1 hs) j i hj' hi' h1
      rw [hjb, hia] at this
      omega
    · subst h1
      rw [hi] at hj
      have : a = b := by simpa using hj
      subst this
      omega
  · intro precision items p hp'
    rw [read_loop_packets] at hp'
    exact original_packet_datalink precision items p hp'
  · intro end_us period fuel start_us buffered
    obtain ⟨gen, h1, _, _, h4⟩ := timecode_loop_appends end_us period fuel start_us 0 buffered
    exact ⟨gen, h1, body_datalink_of_map_eq h4⟩

theorem merge_orders_by_timestamp_only_witness :
    StdSortContract insertion_sort ∧
    (sort_packets insertion_sort (sample_originals ++ sample_timecodes))[0]? =
      some (timecode_packet 0 0) ∧
    (sort_packets insertion_sort (sample_originals ++ sample_timecodes))[3]? =
      some { timestamp_us := 5000, data := [1, 2, 3], orig_len := 3, datalink_type := 0 } ∧
    (0 : Nat) < 3 :=
  ⟨insertion_sort_contract, by decide, by decide,
    (merge_orders_by_timestamp_only insertion_sort insertion_sort_contract
      sample_originals sample_timecodes).2.1 0 3 (timecode_packet 0 0)
      { timestamp_us := 5000, data := [1, 2, 3], orig_len := 3, datalink_type := 0 }
      (by decide) (by decide) (by decide)⟩

/-! ## Truncating division in terms of floor division -/

theorem tdiv_of_nonneg (a b : Int) (ha : 0 ≤ a) (hb : 0 ≤ b) : Int.tdiv a b = a / b :=
  Int.tdiv_eq_ediv ha hb

theorem tdiv_of_neg (a b : Int) (ha : a < 0) (hb : 0 ≤ b) : Int.tdiv a b = -((-a) / b) := by
  have h : Int.tdiv (-(-a)) b = -(Int.tdiv (-a) b) := Int.neg_tdiv (-a) b
  rw [Int.neg_neg] at h
  rw [h, Int.tdiv_eq_ediv (by omega) hb]

theorem tmod_of_nonneg (a b : Int) (ha : 0 ≤ a) (hb : 0 ≤ b) : Int.tmod a b = a % b :=
  Int.tmod_eq_emod ha hb

theorem tmod_of_neg (a b : Int) (ha : a < 0) (hb : 0 ≤ b) : Int.tmod a b = -((-a) % b) := by
  rw [Int.tmod_def, tdiv_of_neg a b ha hb, Int.emod_def]
  ring

/-! ## Claims on the TimeCode payload and on timestamp arithmetic -/

/-- C4: `generate_timecode_data v` is the marker 0xFC followed by `v & 0x3F`
(the low six bits, top two bits zero) for every byte `v`; and in every run of
the generation loop, of whatever length, the i-th generated record (0-indexed)
has the payload `[0xFC, i mod 64]`, declared length 2 and the TimeCode link
type. The last part is a run of 66 records, where the counter wraps 63 -> 0. -/
theorem timecode_counter_and_payload :
    (∀ v : Fin 256,
      generate_timecode_data v.val = [0xFC, v.val &&& 0x3F] ∧
      v.val &&& 0x3F = v.val % 64 ∧ v.val &&& 0x3F < 64) ∧
    (∀ (end_us period : Int) (fuel : Nat) (start_us : Int) (buffered : List Packet),
      ∃ gen : List Packet,
        (timecode_loop end_us period fuel start_us 0 buffered).1 = buffered ++ gen ∧
        gen.map Packet.body =
          (List.range gen.length).map (fun i => ([0xFC, i % 64], 2, DLT_USER2_VALUE))) ∧
    (timecode_loop 65 1 67 0 0 []).2 = true ∧
    (timecode_loop 65 1 67 0 0 []).1.map Packet.body =
      (List.range 66).map (fun i => ([0xFC, i % 64], 2, DLT_USER2_VALUE)) ∧
    ((timecode_loop 65 1 67 0 0 []).1.map Packet.data)[63]? = some [0xFC, 63] ∧
    ((timecode_loop 65 1 67 0 0 []).1.map Packet.data)[64]? = some [0xFC, 0] := by
  refine ⟨?_, ?_, ?_⟩
  · intro v
    have h64 : v.val &&& 0x3F = v.val % 64 := land_63_eq_mod v.val
    refine ⟨?_, h64, ?_⟩
    · rw [generate_timecode_data_eq, h64]
    · rw [h64]; omega
  · intro end_us period fuel start_us buffered
    obtain ⟨gen, h1, _, _, h4⟩ := timecode_loop_appends end_us period fuel start_us 0 buffered
    refine ⟨gen, h1, ?_⟩
    rw [h4]
    apply List.map_congr_left
    intro i _
    simp [DLT_USER2_VALUE]
  · have h := timecode_loop_count 65 1 (by decide) 66 67 0 0 []
      (by decide) (by decide) (by decide) (by decide) (by decide)
    rw [h]
    refine ⟨rfl, ?_, ?_, ?_⟩
    · simp only [List.nil_append, List.map_map]
      apply List.map_congr_left
      intro i _
      simp [Function.comp, Packet.body, timecode_packet_eq, DLT_USER2_VALUE]
    · simp [timecode_packet_eq]
    · simp [timecode_packet_eq]

/-- In the model the two `int64` operations of `to_epoch_us` wrap around. -/
theorem to_epoch_us_eq_wrap (sec usec precision : Int) :
    to_epoch_us ⟨sec, usec⟩ precision =
      wrap64 (sec * 1000000 +
        (if precision = PCAP_TSTAMP_PRECISION_NANO then Int.tdiv usec 1000 else usec)) := by
  simp only [to_epoch_us, wrap64_wrap64_add]

/-- C5, as stated, fails: for the seconds value 9223372036855, which
`time_t` can hold, `seconds * 1_000_000` leaves the `int64` range and the
result is not `seconds * 1_000_000 + subsecond_us`. -/
theorem to_epoch_us_overflows :
    InInt64 9223372036855 ∧
    ¬ InInt64 (9223372036855 * 1000000) ∧
    to_epoch_us ⟨9223372036855, 0⟩ PCAP_TSTAMP_PRECISION_MICRO = -9223372036854551616 ∧
    to_epoch_us ⟨9223372036855, 0⟩ PCAP_TSTAMP_PRECISION_MICRO ≠ 9223372036855 * 1000000 + 0 := by
  decide

/-- C5, amended: whenever `seconds * 1_000_000` and
`seconds * 1_000_000 + subsecond_us` lie in the `int64` range (as they do for
the 32-bit header fields of a capture file), `to_epoch_us` is
`seconds * 1_000_000 + subsecond_us`, where `subsecond_us` is the sub-second
value divided by 1000 with truncation at nanosecond precision and the
sub-second value itself otherwise. At nanosecond precision 999 contributes 0
for every seconds value in that range, the quotient is never rounded up, and
a sub-second value in `[0, 1_000_000_000)` gives a microsecond part in
`[0, 1_000_000)`. -/
theorem to_epoch_us_spec :
    (∀ sec usec : Int, InInt64 (sec * 1000000) →
      InInt64 (sec * 1000000 + Int.tdiv usec 1000) →
      to_epoch_us ⟨sec, usec⟩ PCAP_TSTAMP_PRECISION_NANO = sec * 1000000 + Int.tdiv usec 1000) ∧
    (∀ sec usec precision : Int, precision ≠ PCAP_TSTAMP_PRECISION_NANO →
      InInt64 (sec * 1000000) → InInt64 (sec * 1000000 + usec) →
      to_epoch_us ⟨sec, usec⟩ precision = sec * 1000000 + usec) ∧
    (∀ sec usec : Int, 0 ≤ sec → sec < 4294967296 → 0 ≤ usec → usec < 4294967296 →
      to_epoch_us ⟨sec, usec⟩ PCAP_TSTAMP_PRECISION_NANO = sec * 1000000 + Int.tdiv usec 1000 ∧
      to_epoch_us ⟨sec, usec⟩ PCAP_TSTAMP_PRECISION_MICRO = sec * 1000000 + usec) ∧
    (∀ sec : Int, InInt64 (sec * 1000000) →
      to_epoch_us ⟨sec, 999⟩ PCAP_TSTAMP_PRECISION_NANO = sec * 1000000) ∧
    (∀ usec : Int, 0 ≤ usec →
      Int.tdiv usec 1000 * 1000 ≤ usec ∧ usec < Int.tdiv usec 1000 * 1000 + 1000) ∧
    (∀ usec : Int, 0 ≤ usec → usec < 1000000000 →
      0 ≤ Int.tdiv usec 1000 ∧ Int.tdiv usec 1000 < 1000000) := by
  have hnano : ∀ sec usec : Int, InInt64 (sec * 1000000 + Int.tdiv usec 1000) →
      to_epoch_us ⟨sec, usec⟩ PCAP_TSTAMP_PRECISION_NANO =
        sec * 1000000 + Int.tdiv usec 1000 := by
    intro sec usec h
    rw [to_epoch_us_eq_wrap, if_pos rfl]
    exact wrap64_of_in_range _ h.1 h.2
  have hmicro : ∀ sec usec precision : Int, precision ≠ PCAP_TSTAMP_PRECISION_NANO →
      InInt64 (sec * 1000000 + usec) →
      to_epoch_us ⟨sec, usec⟩ precision = sec * 1000000 + usec := by
    intro sec usec precision hp h
    rw [to_epoch_us_eq_wrap, if_neg hp]
    exact wrap64_of_in_range _ h.1 h.2
  refine ⟨fun sec usec _ h => hnano sec usec h, fun sec usec precision hp _ h =>
    hmicro sec usec precision hp h, ?_, ?_, ?_, ?_⟩
  · intro sec usec hs0 hs1 hu0 hu1
    have hd := tdiv_of_nonneg usec 1000 hu0 (by decide)
    constructor
    · apply hnano
      unfold InInt64 INT64_MIN INT64_MAX
      rw [hd]
      omega
    · apply hmicro sec usec _ (by decide)
      unfold InInt64 INT64_MIN INT64_MAX
      omega
  · intro sec h
    have h999 : Int.tdiv 999 1000 = 0 := by decide
    have := hnano sec 999 (by rw [h999, Int.add_zero]; exact h)
    rw [this, h999, Int.add_zero]
  · intro usec h
    rw [tdiv_of_nonneg usec 1000 h (by decide)]
    omega
  · intro usec h0 h1
    rw [tdiv_of_nonneg usec 1000 h0 (by decide)]
    omega

theorem to_epoch_us_spec_witness :
    InInt64 (1700000000 * 1000000) ∧
    InInt64 (1700000000 * 1000000 + Int.tdiv 123456999 1000) ∧
    to_epoch_us ⟨1700000000, 123456999⟩ PCAP_TSTAMP_PRECISION_NANO = 1700000000123456 ∧
    to_epoch_us ⟨1700000000, 123456⟩ PCAP_TSTAMP_PRECISION_MICRO = 1700000000123456 ∧
    to_epoch_us ⟨1700000000, 999⟩ PCAP_TSTAMP_PRECISION_NANO = 1700000000 * 1000000 :=
  ⟨by decide, by decide,
    to_epoch_us_spec.1 1700000000 123456999 (by decide) (by decide),
    to_epoch_us_spec.2.1 1700000000 123456 PCAP_TSTAMP_PRECISION_MICRO (by decide) (by decide)
      (by decide),
    to_epoch_us_spec.2.2.2.1 1700000000 (by decide)⟩

/-- Lines 55-60 compute the floor quotient and the non-negative remainder. -/
theorem jst_split_eq_floor (epoch_us : Int) :
    jst_split epoch_us = (epoch_us / 1000000, epoch_us % 1000000) := by
  have hsplit : jst_split epoch_us =
      if Int.tmod epoch_us 1000000 < 0 then
        (Int.tdiv epoch_us 1000000 - 1, Int.tmod epoch_us 1000000 + 1000000)
      else (Int.tdiv epoch_us 1000000, Int.tmod epoch_us 1000000) := rfl
  rw [hsplit]
  by_cases hneg : epoch_us < 0
  · have hd := tdiv_of_neg epoch_us 1000000 hneg (by decide)
    have hm := tmod_of_neg epoch_us 1000000 hneg (by decide)
    split
    · refine Prod.ext ?_ ?_ <;> simp only <;> omega
    · refine Prod.ext ?_ ?_ <;> simp only <;> omega
  · have hd := tdiv_of_nonneg epoch_us 1000000 (by omega) (by decide)
    have hm := tmod_of_nonneg epoch_us 1000000 (by omega) (by decide)
    rw [if_neg (by omega)]
    refine Prod.ext ?_ ?_ <;> simp only <;> omega

/-- The string is built from the parts of `jst_split` and `gmtime_r` nine hours
later. -/
theorem format_jst_iso_eq (epoch_us : Int) :
    format_jst_iso epoch_us =
      String.mk ((jst_chars (gmtime_r ((jst_split epoch_us).1 + 9 * 3600))
        (jst_split epoch_us).2).take 63) := rfl

/-- C6: the seconds and sub-second parts that `format_jst_iso` renders are the
floor quotient and the non-negative remainder of `epoch_us` by 1_000_000:
they recombine to `epoch_us` and the remainder lies in `[0, 1_000_000)`; when
the truncating remainder is negative the seconds part is the truncating
quotient minus one and the remainder is raised by 1_000_000, otherwise both
are kept. -/
theorem jst_split_spec (epoch_us : Int) :
    (jst_split epoch_us).1 * 1000000 + (jst_split epoch_us).2 = epoch_us ∧
    0 ≤ (jst_split epoch_us).2 ∧ (jst_split epoch_us).2 < 1000000 ∧
    (jst_split epoch_us).1 = epoch_us / 1000000 ∧
    (jst_split epoch_us).2 = epoch_us % 1000000 ∧
    (Int.tmod epoch_us 1000000 < 0 →
      (jst_split epoch_us).1 = Int.tdiv epoch_us 1000000 - 1 ∧
      (jst_split epoch_us).2 = Int.tmod epoch_us 1000000 + 1000000) ∧
    (0 ≤ Int.tmod epoch_us 1000000 →
      (jst_split epoch_us).1 = Int.tdiv epoch_us 1000000 ∧
      (jst_split epoch_us).2 = Int.tmod epoch_us 1000000) ∧
    format_jst_iso epoch_us =
      String.mk ((jst_chars (gmtime_r ((jst_split epoch_us).1 + 9 * 3600))
        (jst_split epoch_us).2).take 63) := by
  have hfl := jst_split_eq_floor epoch_us
  have h1 : (jst_split epoch_us).1 = epoch_us / 1000000 := by rw [hfl]
  have h2 : (jst_split epoch_us).2 = epoch_us % 1000000 := by rw [hfl]
  have hsplit : jst_split epoch_us =
      if Int.tmod epoch_us 1000000 < 0 then
        (Int.tdiv epoch_us 1000000 - 1, Int.tmod epoch_us 1000000 + 1000000)
      else (Int.tdiv epoch_us 1000000, Int.tmod epoch_us 1000000) := rfl
  refine ⟨by omega, by omega, by omega, h1, h2, ?_, ?_, format_jst_iso_eq epoch_us⟩
  · intro hr
    rw [hsplit, if_pos hr]
    exact ⟨rfl, rfl⟩
  · intro hr
    rw [hsplit, if_neg (by omega)]
    exact ⟨rfl, rfl⟩

theorem jst_split_spec_witness :
    Int.tmod (-1) 1000000 < 0 ∧ jst_split (-1) = (-1, 999999) ∧
    (jst_split (-1)).1 = Int.tdiv (-1) 1000000 - 1 ∧
    (jst_split (-1)).2 = Int.tmod (-1) 1000000 + 1000000 :=
  ⟨by decide, by decide, (jst_split_spec (-1)).2.2.2.2.2.1 (by decide)⟩

/-! ## Runs of the generation loop that do not end -/

/-- When the loop condition holds at every value that `ts` takes, the loop has
not ended after any number of passes, and has appended one packet per pass. -/
theorem timecode_loop_never_ends (end_us period : Int) (inv : Int → Prop)
    (hstep : ∀ t, inv t → t ≤ end_us ∧ inv (wrap64 (t + period))) :
    ∀ (fuel : Nat) (ts : Int) (tcv : Nat) (packets : List Packet), inv ts →
      (timecode_loop end_us period fuel ts tcv packets).2 = false ∧
      (timecode_loop end_us period fuel ts tcv packets).1.length = packets.length + fuel := by
  intro fuel
  induction fuel with
  | zero => intro ts tcv packets _; simp [timecode_loop]
  | succ n ih =>
    intro ts tcv packets hts
    obtain ⟨hle, hnext⟩ := hstep ts hts
    obtain ⟨h1, h2⟩ := ih (wrap64 (ts + period)) ((tcv + 1) % 64 % 256)
      (packets ++ [timecode_packet ts tcv]) hnext
    simp only [timecode_loop, if_pos hle, h1, h2, List.length_append, List.length_singleton,
      true_and]
    omega

theorem generate_and_write_none (sort : SortFn) (fuel : Nat) (env : Env) (cfg : Config)
    (output_path : String) (buffered : List Packet)
    (h : (timecode_loop cfg.end_us (Int.tdiv 1000000 cfg.frequency) fuel cfg.start_us 0
      buffered).2 = false) :
    generate_and_write sort fuel env cfg output_path buffered = none := by
  simp only [generate_and_write]
  split
  · rfl
  · rename_i packets heq
    rw [heq] at h
    exact Bool.noConfusion h

/-- C1 at `--start 0 --end 1 --freq 2000000`: the frequency is positive and the
window is valid, the option loop accepts it, the period `1000000 / 2000000` is
0, and the generation loop has not ended after any number of passes, having
appended one packet per pass: the program never gets to the merge. -/
theorem generation_does_not_end_at_two_mhz :
    parse_args decimal_value decimal_value "prog"
      ["--pcap", "in.pcap", "--start", "0", "--end", "1", "--file", "out.pcap",
       "--freq", "2000000"] {} = .ok cfg_two_mhz ∧
    0 < cfg_two_mhz.frequency ∧ cfg_two_mhz.start_us < cfg_two_mhz.end_us ∧
    Int.tdiv 1000000 cfg_two_mhz.frequency = 0 ∧
    (∀ (fuel : Nat) (buffered : List Packet),
      (timecode_loop 1 0 fuel 0 0 buffered).2 = false ∧
      (timecode_loop 1 0 fuel 0 0 buffered).1.length = buffered.length + fuel) ∧
    (∀ (sort : SortFn) (fuel : Nat), run sort fuel sample_env "prog" cfg_two_mhz = none) := by
  have hloop : ∀ (fuel : Nat) (buffered : List Packet),
      (timecode_loop 1 0 fuel 0 0 buffered).2 = false ∧
      (timecode_loop 1 0 fuel 0 0 buffered).1.length = buffered.length + fuel := by
    intro fuel buffered
    refine timecode_loop_never_ends 1 0 (fun t => t = 0) ?_ fuel 0 0 buffered rfl
    intro t ht
    subst ht
    exact ⟨by decide, by decide⟩
  refine ⟨rfl, by decide, by decide, by decide, hloop, ?_⟩
  intro sort fuel
  have hg : generate_and_write sort fuel sample_env cfg_two_mhz "out.pcap"
      (read_loop sample_capture.precision true sample_capture.items).packets = none :=
    generate_and_write_none sort fuel sample_env cfg_two_mhz "out.pcap" _ (hloop fuel _).1
  have hgen : generate_timecode cfg_two_mhz = true := by decide
  simp only [run, cfg_two_mhz, sample_env] at hg hgen ⊢
  simp only [hgen]
  simp +decide only [hg]

/-! ## The program after a successful read -/

/-- The second way in which the generation loop does not end: with
`--end 9223372036854775807` the condition `ts <= end_us` holds for every
`int64` value, whatever `ts += period` wraps to. -/
theorem generation_does_not_end_at_int64_max :
    generate_timecode cfg_window_at_int64_max = true ∧
    cfg_window_at_int64_max.start_us < cfg_window_at_int64_max.end_us ∧
    timecode_loop 9223372036854775807 1000000 2 9223372036854775806 0 [] =
      ([timecode_packet 9223372036854775806 0, timecode_packet (-9223372036853775810) 1],
        false) ∧
    (∀ (sort : SortFn) (fuel : Nat),
      run sort fuel sample_env "prog" cfg_window_at_int64_max = none) := by
  refine ⟨by decide, by decide, by decide, ?_⟩
  intro sort fuel
  have hloop : (timecode_loop cfg_window_at_int64_max.end_us
      (Int.tdiv 1000000 cfg_window_at_int64_max.frequency) fuel
      cfg_window_at_int64_max.start_us 0
      (read_loop sample_capture.precision true sample_capture.items).packets).2 = false :=
    (timecode_loop_never_ends _ _ (fun t => t ≤ INT64_MAX)
      (fun t ht => ⟨ht, wrap64_le_max _⟩) fuel _ 0 _ (by decide)).1
  have hg := generate_and_write_none sort fuel sample_env cfg_window_at_int64_max "out.pcap" _
    hloop
  have hgen : generate_timecode cfg_window_at_int64_max = true := by decide
  simp only [run, cfg_window_at_int64_max, sample_env] at hg hgen ⊢
  simp only [hgen]
  simp +decide only [hg]

/-! ## Claims on the checks before and after reading -/

/-- C7, as stated, fails: with `--start 10 --end 5` and no `--file` the window
is not checked; the capture is opened and read and the program ends with
status 0. -/
theorem reversed_window_without_output_not_rejected :
    main decimal_value decimal_value insertion_sort 0 empty_env "prog"
        ["--pcap", "in.pcap", "--start", "10", "--end", "5"] =
      some ([ .pcap_open_offline "in.pcap", .pcap_close_input,
              .printf "File: %s\n" [.str "in.pcap"],
              .printf "Frame count: %ld\n" [.i64 0],
              .printf "First frame time: N/A\n" [],
              .printf "Last frame time: N/A\n" [],
              .printf "Duration: N/A\n" [] ], 0) := by
  decide

/-- C7, amended: when TimeCode generation is requested (start_us >= 0,
end_us >= 0 and an output path are given) and start_us >= end_us, the program
ends with status 1 and all it has done is to write diagnostics to stderr: the
capture is not opened and nothing is read or written. This holds for the
program after the option loop and for `main` on every argument vector that
the option loop turns into such a configuration. -/
theorem reversed_window_rejected_before_io (sort : SortFn) (fuel : Nat) (env : Env)
    (prog : String) (cfg : Config) (hgen : generate_timecode cfg = true)
    (hwin : cfg.start_us ≥ cfg.end_us) :
    (∃ events : List Event,
      run sort fuel env prog cfg = some (events, 1) ∧ ∀ e ∈ events, e.isStderr = true) ∧
    (∀ (atoll atoi : String → Int) (args : List String),
      parse_args atoll atoi prog args {} = .ok cfg →
      ∃ events : List Event,
        main atoll atoi sort fuel env prog args = some (events, 1) ∧
        ∀ e ∈ events, e.isStderr = true) := by
  have hrun : ∃ events : List Event,
      run sort fuel env prog cfg = some (events, 1) ∧ ∀ e ∈ events, e.isStderr = true := by
    cases hp : cfg.pcap_path with
    | none =>
      refine ⟨.fprintf_stderr "Error: --pcap option is required\n" [] :: print_usage prog,
        by simp only [run, hp], ?_⟩
      intro e he
      simp only [print_usage, List.mem_cons, List.mem_singleton, List.not_mem_nil, or_false] at he
      rcases he with h | h | h | h | h | h | h <;> subst h <;> rfl
    | some pcap_path =>
      refine ⟨[.fprintf_stderr "Error: --start must be less than --end\n" []], ?_, ?_⟩
      · simp only [run, hp, hgen, Bool.true_and, decide_eq_true_eq, hwin, if_true]
      · intro e he
        simp only [List.mem_singleton] at he
        subst he
        rfl
  refine ⟨hrun, ?_⟩
  intro atoll atoi args hparse
  simp only [main, hparse]
  exact hrun

theorem reversed_window_rejected_before_io_witness :
    generate_timecode
      { pcap_path := some "in.pcap", output_path := some "out.pcap", start_us := 10,
        end_us := 5 } = true ∧
    main decimal_value decimal_value insertion_sort 0 sample_env "prog"
        ["--pcap", "in.pcap", "--start", "10", "--end", "5", "--file", "out.pcap"] =
      some ([.fprintf_stderr "Error: --start must be less than --end\n" []], 1) ∧
    ∃ events : List Event,
      run insertion_sort 0 sample_env "prog"
        { pcap_path := some "in.pcap", output_path := some "out.pcap", start_us := 10,
          end_us := 5 } = some (events, 1) ∧
      ∀ e ∈ events, e.isStderr = true :=
  ⟨by decide, by decide,
    (reversed_window_rejected_before_io insertion_sort 0 sample_env "prog"
      { pcap_path := some "in.pcap", output_path := some "out.pcap", start_us := 10, end_us := 5 }
      (by decide) (by decide)).1⟩

/-- C10: when the capture opens and is read to its end without a frame, the
program prints the file name, a frame count of 0 and N/A for the first time,
the last time and the duration, and ends with status 0, whatever window,
frequency and output path were given (as long as the window passed the check):
no TimeCode record is generated and nothing is handed to the output. And in
every run, a record is handed to the output only if at least one frame was
read. -/
theorem empty_capture_reports_na (sort : SortFn) (fuel : Nat) (env : Env) (prog : String)
    (cfg : Config) :
    (∀ (pcap_path : String) (cap : Capture),
      cfg.pcap_path = some pcap_path → env.open_offline pcap_path = some cap →
      cap.read_error = false → (∀ it ∈ cap.items, it = ReadItem.timeout) →
      ¬ (generate_timecode cfg = true ∧ cfg.start_us ≥ cfg.end_us) →
      run sort fuel env prog cfg =
        some ([ .pcap_open_offline pcap_path, .pcap_close_input,
                .printf "File: %s\n" [.str pcap_path],
                .printf "Frame count: %ld\n" [.i64 0],
                .printf "First frame time: N/A\n" [],
                .printf "Last frame time: N/A\n" [],
                .printf "Duration: N/A\n" [] ], 0)) ∧
    (∀ (events : List Event) (status : Int),
      run sort fuel env prog cfg = some (events, status) →
      (∃ e ∈ events, e.isDump = true) →
      ∃ (pcap_path : String) (cap : Capture),
        cfg.pcap_path = some pcap_path ∧ env.open_offline pcap_path = some cap ∧
        ∃ ts len data, ReadItem.packet ts len data ∈ cap.items) := by
  constructor
  · intro pcap_path cap hp hopen herr hitems hok
    have hst : read_loop cap.precision (generate_timecode cfg) cap.items = {} :=
      read_foldl_timeouts cap.precision _ cap.items hitems {}
    have hcheck : (generate_timecode cfg && decide (cfg.start_us ≥ cfg.end_us)) = false := by
      cases hg : generate_timecode cfg
      · rfl
      · simp only [Bool.true_and, decide_eq_false_iff_not]
        intro hc
        exact hok ⟨hg, hc⟩
    simp +decide only [run, hp, hcheck, hopen, herr, hst]
    rfl
  · intro events status hrun hdump
    have hany : events.any Event.isDump = true := by
      obtain ⟨e, he, hd⟩ := hdump
      exact List.any_eq_true.2 ⟨e, he, hd⟩
    cases hp : cfg.pcap_path with
    | none =>
      simp only [run, hp, Option.some.injEq, Prod.mk.injEq] at hrun
      obtain ⟨rfl, rfl⟩ := hrun
      simp [print_usage, Event.isDump] at hany
    | some pcap_path =>
      cases hopen : env.open_offline pcap_path with
      | none =>
        simp only [run, hp, hopen] at hrun
        split at hrun
        · simp only [Option.some.injEq, Prod.mk.injEq] at hrun
          obtain ⟨rfl, rfl⟩ := hrun
          simp [Event.isDump] at hany
        · simp only [Option.some.injEq, Prod.mk.injEq] at hrun
          obtain ⟨rfl, rfl⟩ := hrun
          simp [Event.isDump] at hany
      | some cap =>
        refine ⟨pcap_path, cap, rfl, hopen, ?_⟩
        by_contra hno
        have hitems : ∀ it ∈ cap.items, it = ReadItem.timeout := by
          intro it hit
          cases it with
          | timeout => rfl
          | packet ts len data => exact absurd ⟨ts, len, data, hit⟩ hno
        have hst : read_loop cap.precision (generate_timecode cfg) cap.items = {} :=
          read_foldl_timeouts cap.precision _ cap.items hitems {}
        simp only [run, hp, hopen, hst] at hrun
        split at hrun
        · simp only [Option.some.injEq, Prod.mk.injEq] at hrun
          obtain ⟨rfl, rfl⟩ := hrun
          simp [Event.isDump] at hany
        · split at hrun
          · simp only [Option.some.injEq, Prod.mk.injEq] at hrun
            obtain ⟨rfl, rfl⟩ := hrun
            simp [Event.isDump] at hany
          · simp +decide only [if_true, Option.some.injEq, Prod.mk.injEq] at hrun
            obtain ⟨rfl, rfl⟩ := hrun
            simp [Event.isDump] at hany

theorem empty_capture_reports_na_witness :
    empty_env.open_offline "in.pcap" = some empty_capture ∧
    generate_timecode cfg_end_to_end = true ∧
    run insertion_sort 5 empty_env "prog" cfg_end_to_end =
      some ([ .pcap_open_offline "in.pcap", .pcap_close_input,
              .printf "File: %s\n" [.str "in.pcap"],
              .printf "Frame count: %ld\n" [.i64 0],
              .printf "First frame time: N/A\n" [],
              .printf "Last frame time: N/A\n" [],
              .printf "Duration: N/A\n" [] ], 0) :=
  ⟨rfl, by decide,
    (empty_capture_reports_na insertion_sort 5 empty_env "prog" cfg_end_to_end).1
      "in.pcap" empty_capture rfl rfl rfl (by decide) (by decide)⟩

/-! ## Decimal rendering -/

theorem dec_fixed_length (k n : Nat) : (dec_fixed k n).length = k := by
  induction k generalizing n with
  | zero => rfl
  | succ k ih => simp [dec_fixed, ih]

theorem dec_fixed_zero (k : Nat) : dec_fixed k 0 = List.replicate k '0' := by
  induction k with
  | zero => rfl
  | succ k ih =>
    simp only [dec_fixed, Nat.zero_div, Nat.zero_mod, ih]
    rw [List.replicate_succ']
    rfl

/-- The digits that `Nat.toDigits` yields are the fixed-width digits without
some leading zeros. -/
theorem toDigitsCore_eq_drop (k : Nat) :
    ∀ (fuel n : Nat) (ds : List Char), n < 10 ^ (k + 1) → n < fuel →
      ∃ z, z ≤ k ∧ Nat.toDigitsCore 10 fuel n ds = (dec_fixed (k + 1) n).drop z ++ ds ∧
        (dec_fixed (k + 1) n).take z = List.replicate z '0' := by
  induction k with
  | zero =>
    intro fuel n ds hn hfuel
    obtain ⟨f, rfl⟩ : ∃ f, fuel = f + 1 := ⟨fuel - 1, by omega⟩
    have h0 : n / 10 = 0 := by omega
    refine ⟨0, le_refl _, ?_, by simp⟩
    simp [Nat.toDigitsCore, h0, dec_fixed]
  | succ k ih =>
    intro fuel n ds hn hfuel
    obtain ⟨f, rfl⟩ : ∃ f, fuel = f + 1 := ⟨fuel - 1, by omega⟩
    by_cases h0 : n / 10 = 0
    · refine ⟨k + 1, le_refl _, ?_, ?_⟩
      · have hlen : (dec_fixed (k + 1) 0).length = k + 1 := dec_fixed_length _ _
        simp only [Nat.toDigitsCore, h0, if_true]
        rw [dec_fixed, h0, List.drop_append_of_le_length (by omega),
          List.drop_of_length_le (by omega)]
        rfl
      · have hlen : (dec_fixed (k + 1) 0).length = k + 1 := dec_fixed_length _ _
        rw [dec_fixed, h0, List.take_append_of_le_length (by omega),
          List.take_of_length_le (by omega), dec_fixed_zero]
    · have hlt : n / 10 < 10 ^ (k + 1) := by
        rw [pow_succ] at hn
        omega
      obtain ⟨z, hz, h1, h2⟩ := ih f (n / 10) (Nat.digitChar (n % 10) :: ds) hlt (by omega)
      have hlen : (dec_fixed (k + 1) (n / 10)).length = k + 1 := dec_fixed_length _ _
      have e1 : Nat.toDigitsCore 10 (f + 1) n ds =
          Nat.toDigitsCore 10 f (n / 10) (Nat.digitChar (n % 10) :: ds) := by
        simp only [Nat.toDigitsCore, h0, if_false]
      have e2 : dec_fixed (k + 1 + 1) n =
          dec_fixed (k + 1) (n / 10) ++ [Nat.digitChar (n % 10)] := rfl
      refine ⟨z, by omega, ?_, ?_⟩
      · rw [e1, h1, e2, List.drop_append_of_le_length (by omega)]
        simp
      · rw [e2, List.take_append_of_le_length (by omega), h2]

theorem zero_pad_toDigits (k n : Nat) (hk : 1 ≤ k) (hn : n < 10 ^ k) :
    zero_pad k (Nat.toDigits 10 n) = dec_fixed k n := by
  obtain ⟨j, rfl⟩ : ∃ j, k = j + 1 := ⟨k - 1, by omega⟩
  obtain ⟨z, hz, h1, h2⟩ := toDigitsCore_eq_drop j (n + 1) n [] hn (by omega)
  have hlen : (dec_fixed (j + 1) n).length = j + 1 := dec_fixed_length _ _
  unfold zero_pad Nat.toDigits
  rw [h1, List.append_nil, List.length_drop, hlen]
  have hz' : j + 1 - (j + 1 - z) = z := by omega
  rw [hz', ← h2, List.take_append_drop]

/-- The conversion `%0kd` of a value in `[0, 10^k)` is exactly `k` digits. -/
theorem fmt_d0_eq_fixed (k : Nat) (v : Int) (hk : 1 ≤ k) (h0 : 0 ≤ v) (hv : v < 10 ^ k) :
    fmt_d0 k v = dec_fixed k v.toNat := by
  have hnat : v.natAbs = v.toNat := by omega
  have hlt : v.toNat < 10 ^ k := by
    have : ((v.toNat : Nat) : Int) < ((10 ^ k : Nat) : Int) := by
      rw [Int.toNat_of_nonneg h0]; push_cast; exact hv
    exact_mod_cast this
  unfold fmt_d0
  rw [if_neg (by omega), hnat, zero_pad_toDigits k _ hk hlt]

theorem toDigits_length_le (k n : Nat) (hk : 1 ≤ k) (hn : n < 10 ^ k) :
    (Nat.toDigits 10 n).length ≤ k := by
  obtain ⟨j, rfl⟩ : ∃ j, k = j + 1 := ⟨k - 1, by omega⟩
  obtain ⟨z, hz, h1, _⟩ := toDigitsCore_eq_drop j (n + 1) n [] hn (by omega)
  unfold Nat.toDigits
  rw [h1, List.append_nil, List.length_drop, dec_fixed_length]
  omega

theorem zero_pad_length (w : Nat) (ds : List Char) : (zero_pad w ds).length = max w ds.length := by
  unfold zero_pad
  rw [List.length_append, List.length_replicate]
  omega

theorem fmt_d0_length_le (w k : Nat) (v : Int) (hk : 1 ≤ k) (hw : w ≤ k)
    (hv : v.natAbs < 10 ^ k) : (fmt_d0 w v).length ≤ k + 1 := by
  have hl := toDigits_length_le k v.natAbs hk hv
  unfold fmt_d0
  split
  · rw [List.length_cons, zero_pad_length]; omega
  · rw [zero_pad_length]; omega

/-! ## Ranges of the fields of gmtime_r -/

theorem gmtime_r_time_ranges (t : Int) :
    0 ≤ (gmtime_r t).tm_hour ∧ (gmtime_r t).tm_hour ≤ 23 ∧
    0 ≤ (gmtime_r t).tm_min ∧ (gmtime_r t).tm_min ≤ 59 ∧
    0 ≤ (gmtime_r t).tm_sec ∧ (gmtime_r t).tm_sec ≤ 59 := by
  simp only [gmtime_r]
  omega

theorem gmtime_r_date_ranges (t : Int) :
    0 ≤ (gmtime_r t).tm_mon ∧ (gmtime_r t).tm_mon ≤ 11 ∧
    1 ≤ (gmtime_r t).tm_mday ∧ (gmtime_r t).tm_mday ≤ 31 := by
  simp only [gmtime_r]
  split <;> omega

theorem gmtime_r_year_four_digits (t : Int) (h1 : -62167219200 ≤ t) (h2 : t < 253402300800) :
    0 ≤ (gmtime_r t).tm_year + 1900 ∧ (gmtime_r t).tm_year + 1900 ≤ 9999 := by
  simp only [gmtime_r]
  rcases (by omega : (t / 86400 + 719468) / 146097 = -1 ∨
      0 ≤ (t / 86400 + 719468) / 146097) with he | he
  · have hdoe : 146037 ≤ (t / 86400 + 719468) % 146097 := by omega
    have hyoe : ((t / 86400 + 719468) % 146097 - (t / 86400 + 719468) % 146097 / 1460 +
        (t / 86400 + 719468) % 146097 / 36524 - (t / 86400 + 719468) % 146097 / 146096) / 365
        = 399 := by omega
    rw [hyoe, he]
    split <;> omega
  · rcases (by omega : (t / 86400 + 719468) / 146097 = 25 ∨
        (t / 86400 + 719468) / 146097 < 25) with he' | he'
    · have hdoe : (t / 86400 + 719468) % 146097 < 305 := by omega
      have hyoe : ((t / 86400 + 719468) % 146097 - (t / 86400 + 719468) % 146097 / 1460 +
          (t / 86400 + 719468) % 146097 / 36524 - (t / 86400 + 719468) % 146097 / 146096) / 365
          = 0 := by omega
      rw [hyoe, he']
      split <;> omega
    · split <;> omega

theorem gmtime_r_year_bound (t : Int) (h1 : -9300000000000 ≤ t) (h2 : t ≤ 9300000000000) :
    -1000000 < (gmtime_r t).tm_year + 1900 ∧ (gmtime_r t).tm_year + 1900 < 1000000 := by
  simp only [gmtime_r]
  split <;> omega

theorem jst_year_bound (epoch_us : Int) (h : InInt64 epoch_us) :
    (jst_year epoch_us).natAbs < 10 ^ 7 := by
  have hq : (jst_split epoch_us).1 = epoch_us / 1000000 := by rw [jst_split_eq_floor]
  have hb := gmtime_r_year_bound ((jst_split epoch_us).1 + 9 * 3600)
    (by rw [hq]; unfold InInt64 INT64_MIN INT64_MAX at h; omega)
    (by rw [hq]; unfold InInt64 INT64_MIN INT64_MAX at h; omega)
  have hlit : (10 : Nat) ^ 7 = 10000000 := by norm_num
  rw [hlit]
  unfold jst_year
  omega

theorem jst_year_four_digits (epoch_us : Int) (h1 : -62167251600000000 ≤ epoch_us)
    (h2 : epoch_us < 253402268400000000) :
    0 ≤ jst_year epoch_us ∧ jst_year epoch_us ≤ 9999 := by
  have hq : (jst_split epoch_us).1 = epoch_us / 1000000 := by rw [jst_split_eq_floor]
  exact gmtime_r_year_four_digits ((jst_split epoch_us).1 + 9 * 3600)
    (by rw [hq]; omega) (by rw [hq]; omega)

/-! ## Claims on the rendered time -/

theorem jst_tail_length (mon mday hour min sec us : Nat) :
    (jst_tail mon mday hour min sec us).length = 28 := by
  simp [jst_tail, dec_fixed_length]

theorem jst_chars_eq (epoch_us : Int) :
    jst_chars (jst_tm epoch_us) (jst_split epoch_us).2 =
      fmt_d0 4 (jst_year epoch_us) ++
        jst_tail ((jst_tm epoch_us).tm_mon + 1).toNat (jst_tm epoch_us).tm_mday.toNat
          (jst_tm epoch_us).tm_hour.toNat (jst_tm epoch_us).tm_min.toNat
          (jst_tm epoch_us).tm_sec.toNat (jst_split epoch_us).2.toNat := by
  obtain ⟨h1, h2, h3, h4, h5, h6⟩ := gmtime_r_time_ranges ((jst_split epoch_us).1 + 9 * 3600)
  obtain ⟨d1, d2, d3, d4⟩ := gmtime_r_date_ranges ((jst_split epoch_us).1 + 9 * 3600)
  have hr : (jst_split epoch_us).2 = epoch_us % 1000000 := by rw [jst_split_eq_floor]
  have s1 : 0 ≤ (jst_split epoch_us).2 := by omega
  have s2 : (jst_split epoch_us).2 < 1000000 := by omega
  have p2 : (10 : Int) ^ 2 = 100 := by norm_num
  have p6 : (10 : Int) ^ 6 = 1000000 := by norm_num
  unfold jst_chars jst_tail jst_year jst_tm
  rw [fmt_d0_eq_fixed 2 _ (by decide) (by omega) (by rw [p2]; omega),
    fmt_d0_eq_fixed 2 (gmtime_r ((jst_split epoch_us).1 + 9 * 3600)).tm_mday (by decide)
      (by omega) (by rw [p2]; omega),
    fmt_d0_eq_fixed 2 (gmtime_r ((jst_split epoch_us).1 + 9 * 3600)).tm_hour (by decide)
      (by omega) (by rw [p2]; omega),
    fmt_d0_eq_fixed 2 (gmtime_r ((jst_split epoch_us).1 + 9 * 3600)).tm_min (by decide)
      (by omega) (by rw [p2]; omega),
    fmt_d0_eq_fixed 2 (gmtime_r ((jst_split epoch_us).1 + 9 * 3600)).tm_sec (by decide)
      (by omega) (by rw [p2]; omega),
    fmt_d0_eq_fixed 6 (jst_split epoch_us).2 (by decide) s1 (by rw [p6]; exact s2)]
  simp only [List.append_assoc, List.singleton_append, List.cons_append, List.nil_append]

/-- C8, as stated, fails: at the first microsecond of the year 10000 (at
+09:00) the year field has five digits, and before the year 0 it carries a
sign, so the result is not of the shape `YYYY-MM-DD HH:MM:SS.ffffff+09:00`. -/
theorem format_jst_iso_year_field_grows :
    InInt64 253402268400000000 ∧
    format_jst_iso 253402268400000000 = "10000-01-01 00:00:00.000000+09:00" ∧
    (format_jst_iso 253402268400000000).length = 33 ∧
    format_jst_iso (-62167251600000001) = "-001-12-31 23:59:59.999999+09:00" := by
  decide

/-- C8, amended: for every `int64` value `epoch_us` the result is the year at
+09:00 printed with at least four characters (`%04d`), followed by
`-MM-DD HH:MM:SS.ffffff+09:00`, where month, day, hour, minute and second are
the two-digit civil fields of the normalized seconds plus nine hours (no
timezone setting is read) and `ffffff` is the normalized microsecond remainder
in exactly six digits; the fields lie in the civil ranges. When the year lies
in 0..9999, which is the case for every `epoch_us` from -62167251600000000 up
to 253402268399999999, the result has exactly the 32-character shape
`YYYY-MM-DD HH:MM:SS.ffffff+09:00`. -/
theorem format_jst_iso_rendering (epoch_us : Int) (h : InInt64 epoch_us) :
    (format_jst_iso epoch_us).data =
      fmt_d0 4 (jst_year epoch_us) ++
        jst_tail ((jst_tm epoch_us).tm_mon + 1).toNat (jst_tm epoch_us).tm_mday.toNat
          (jst_tm epoch_us).tm_hour.toNat (jst_tm epoch_us).tm_min.toNat
          (jst_tm epoch_us).tm_sec.toNat (jst_split epoch_us).2.toNat ∧
    4 ≤ (fmt_d0 4 (jst_year epoch_us)).length ∧
    (1 ≤ (jst_tm epoch_us).tm_mon + 1 ∧ (jst_tm epoch_us).tm_mon + 1 ≤ 12 ∧
     1 ≤ (jst_tm epoch_us).tm_mday ∧ (jst_tm epoch_us).tm_mday ≤ 31 ∧
     0 ≤ (jst_tm epoch_us).tm_hour ∧ (jst_tm epoch_us).tm_hour ≤ 23 ∧
     0 ≤ (jst_tm epoch_us).tm_min ∧ (jst_tm epoch_us).tm_min ≤ 59 ∧
     0 ≤ (jst_tm epoch_us).tm_sec ∧ (jst_tm epoch_us).tm_sec ≤ 59 ∧
     0 ≤ (jst_split epoch_us).2 ∧ (jst_split epoch_us).2 < 1000000 ∧
     (jst_split epoch_us).1 * 1000000 + (jst_split epoch_us).2 = epoch_us) ∧
    (0 ≤ jst_year epoch_us → jst_year epoch_us ≤ 9999 →
      (format_jst_iso epoch_us).data =
        jst_shape (jst_year epoch_us).toNat ((jst_tm epoch_us).tm_mon + 1).toNat
          (jst_tm epoch_us).tm_mday.toNat (jst_tm epoch_us).tm_hour.toNat
          (jst_tm epoch_us).tm_min.toNat (jst_tm epoch_us).tm_sec.toNat
          (jst_split epoch_us).2.toNat ∧
      (format_jst_iso epoch_us).length = 32) ∧
    (-62167251600000000 ≤ epoch_us → epoch_us < 253402268400000000 →
      0 ≤ jst_year epoch_us ∧ jst_year epoch_us ≤ 9999) := by
  obtain ⟨h1, h2, h3, h4, h5, h6⟩ := gmtime_r_time_ranges ((jst_split epoch_us).1 + 9 * 3600)
  obtain ⟨d1, d2, d3, d4⟩ := gmtime_r_date_ranges ((jst_split epoch_us).1 + 9 * 3600)
  have hfl := jst_split_eq_floor epoch_us
  have hfmt := format_jst_iso_eq epoch_us
  have s0 : (jst_split epoch_us).1 * 1000000 + (jst_split epoch_us).2 = epoch_us := by
    rw [hfl]; simp only; omega
  have s1 : 0 ≤ (jst_split epoch_us).2 := by rw [hfl]; simp only; omega
  have s2 : (jst_split epoch_us).2 < 1000000 := by rw [hfl]; simp only; omega
  have hylen : (fmt_d0 4 (jst_year epoch_us)).length ≤ 8 :=
    fmt_d0_length_le 4 7 _ (by decide) (by decide) (jst_year_bound epoch_us h)
  have hdata : (format_jst_iso epoch_us).data =
      fmt_d0 4 (jst_year epoch_us) ++
        jst_tail ((jst_tm epoch_us).tm_mon + 1).toNat (jst_tm epoch_us).tm_mday.toNat
          (jst_tm epoch_us).tm_hour.toNat (jst_tm epoch_us).tm_min.toNat
          (jst_tm epoch_us).tm_sec.toNat (jst_split epoch_us).2.toNat := by
    have hfmt' : format_jst_iso epoch_us =
        String.mk ((jst_chars (jst_tm epoch_us) (jst_split epoch_us).2).take 63) := hfmt
    rw [hfmt', jst_chars_eq, List.take_of_length_le]
    rw [List.length_append, jst_tail_length]
    omega
  have hmin : 4 ≤ (fmt_d0 4 (jst_year epoch_us)).length := by
    unfold fmt_d0
    split
    · rw [List.length_cons, zero_pad_length]; omega
    · rw [zero_pad_length]; omega
  refine ⟨hdata, hmin, ?_, ?_, jst_year_four_digits epoch_us⟩
  · unfold jst_tm
    refine ⟨by omega, by omega, d3, d4, h1, h2, h3, h4, h5, h6, s1, s2, s0⟩
  · intro hy0 hy1
    have p4 : (10 : Int) ^ 4 = 10000 := by norm_num
    have hyear : fmt_d0 4 (jst_year epoch_us) = dec_fixed 4 (jst_year epoch_us).toNat :=
      fmt_d0_eq_fixed 4 _ (by decide) hy0 (by rw [p4]; omega)
    have hshape : (format_jst_iso epoch_us).data =
        jst_shape (jst_year epoch_us).toNat ((jst_tm epoch_us).tm_mon + 1).toNat
          (jst_tm epoch_us).tm_mday.toNat (jst_tm epoch_us).tm_hour.toNat
          (jst_tm epoch_us).tm_min.toNat (jst_tm epoch_us).tm_sec.toNat
          (jst_split epoch_us).2.toNat := by
      rw [hdata, hyear, jst_shape]
    refine ⟨hshape, ?_⟩
    rw [String.length, hdata, hyear, List.length_append, dec_fixed_length, jst_tail_length]

theorem format_jst_iso_rendering_witness :
    InInt64 1700000000500000 ∧
    format_jst_iso 1700000000500000 = "2023-11-15 07:13:20.500000+09:00" ∧
    format_jst_iso 1700000000500000 = "2023-11-15 07:13:20" ++ ".500000+09:00" ∧
    jst_split 1700000000500000 = (1700000000, 500000) ∧
    (format_jst_iso 1700000000500000).data =
      jst_shape 2023 11 15 7 13 20 500000 ∧
    (0 ≤ jst_year 1700000000500000 ∧ jst_year 1700000000500000 ≤ 9999) :=
  ⟨by decide, by decide, by decide, by decide, by decide,
    (format_jst_iso_rendering 1700000000500000 (by decide)).2.2.2.2 (by decide) (by decide)⟩

end PcapAddtc
